import Mathlib

/-!
Helper generation of `scripts/generate/helpers.go`.

A shallow embedding of the helper generator: the Go functions `generateHelpers`,
`generateHelperDef`, `generateHelperArguments`, `getMethodFieldsSubtypeMatches`,
`getMethodFieldsTypeMatches` and the template `helperFunc` become Lean functions over
strings, lists and association lists.  Go `error` values are their message text, and a
function returning `(T, error)` returns `Except String T`.

Functions that `helpers.go` calls but that live in other files of the package
(`orderedMethods`, `getPreferredType`, `snakeToTitle`, ...) are fields of `Externals`,
so that every general theorem holds whatever those functions compute.
-/

set_option autoImplicit false
set_option maxRecDepth 100000

namespace Helpers

/-! ## Strings of the Go standard library -/

/-- The text `s` with the first occurrence of `old` deleted, on characters. -/
def removeFirst (old : List Char) : List Char → List Char
  | [] => []
  | c :: cs =>
    if old.isPrefixOf (c :: cs) then (c :: cs).drop old.length
    else c :: removeFirst old cs

/-- The text `s` with every non-overlapping occurrence of a non-empty `old` deleted, scanning
from the left; `skip` counts the characters of a found occurrence still to be dropped. -/
def removeAllFrom (old : List Char) : Nat → List Char → List Char
  | _, [] => []
  | skip + 1, _ :: cs => removeAllFrom old skip cs
  | 0, c :: cs =>
    if old.isPrefixOf (c :: cs) then removeAllFrom old (old.length - 1) cs
    else c :: removeAllFrom old 0 cs

/-- Go `strings.Replace(s, old, "", 1)`: delete the first occurrence of `old` from `s`
(an empty `old` leaves `s` as it is). -/
def stringsReplaceFirst (s old : String) : String :=
  ⟨removeFirst old.data s.data⟩

/-- Go `strings.ReplaceAll(s, old, "")`: delete every occurrence of `old` from `s`
(an empty `old` leaves `s` as it is). -/
def stringsReplaceAll (s old : String) : String :=
  if old.data = [] then s else ⟨removeAllFrom old.data 0 s.data⟩

/-- Go `strings.Join(elems, sep)`. -/
def stringsJoin (elems : List String) (sep : String) : String :=
  sep.intercalate elems

/-- Go `strings.Contains(s, sub)`: `sub` occurs in `s` as a contiguous run of characters. -/
def stringsContains (s sub : String) : Prop :=
  sub.data <:+: s.data

instance (s sub : String) : Decidable (stringsContains s sub) := by
  unfold stringsContains; infer_instance

/-- Equality of two results of a fallible function is decidable. -/
instance instDecidableEqExcept {ε α : Type} [DecidableEq ε] [DecidableEq α] :
    DecidableEq (Except ε α)
  | .ok a, .ok b =>
    if h : a = b then isTrue (by rw [h]) else isFalse (fun h' => h (Except.ok.inj h'))
  | .error a, .error b =>
    if h : a = b then isTrue (by rw [h]) else isFalse (fun h' => h (Except.error.inj h'))
  | .ok _, .error _ => isFalse (fun h => by cases h)
  | .error _, .ok _ => isFalse (fun h => by cases h)

/-! ## The schema model -/

/-- One field of a method or of a type (`Field`): its name, the type names the API gives
it, and whether it is required. -/
structure Field where
  Name : String
  Types : List String
  Required : Bool
deriving DecidableEq, Repr

/-- A remote method (`MethodDescription`). -/
structure MethodDescription where
  Name : String
  Fields : List Field
  Returns : List String
deriving DecidableEq, Repr

/-- A data type of the API (`TypeDescription`). -/
structure TypeDescription where
  Name : String
  Fields : List Field
deriving DecidableEq, Repr

/-- The schema (`APIDescription`): the two Go maps, as association lists with distinct keys. -/
structure APIDescription where
  Types : List (String × TypeDescription)
  Methods : List (String × MethodDescription)
deriving DecidableEq, Repr

/-- Go `d.Types[typeName]`: the entry of the map, or the zero value when the key is absent. -/
def APIDescription.typeAt (d : APIDescription) (typeName : String) : TypeDescription :=
  match d.Types.find? (fun kv => kv.1 = typeName) with
  | some kv => kv.2
  | none => { Name := "", Fields := [] }

/-- Go `d.Methods[name]`: the entry of the map, or the zero value when the key is absent. -/
def APIDescription.methodAt (d : APIDescription) (name : String) : MethodDescription :=
  match d.Methods.find? (fun kv => kv.1 = name) with
  | some kv => kv.2
  | none => { Name := "", Fields := [], Returns := [] }

/-! ## The match set: a Go `map[string]string` -/

/-- The match set `fields map[string]string` of one (method, type) pair: an association list
that `MatchSet.set` keeps free of duplicate keys, so its length is the Go `len`. -/
abbrev MatchSet := List (String × String)

/-- Go `v, ok := fields[k]`. -/
def MatchSet.get? : MatchSet → String → Option String
  | [], _ => none
  | (k', v) :: rest, k => if k' = k then some v else MatchSet.get? rest k

/-- Go `fields[k] = v`: overwrite the entry of `k`, or add one. -/
def MatchSet.set : MatchSet → String → String → MatchSet
  | [], k, v => [(k, v)]
  | (k', v') :: rest, k, v =>
    if k' = k then (k, v) :: rest else (k', v') :: MatchSet.set rest k v

/-! ## What `helpers.go` takes from the rest of the package -/

/-- The functions and constants that `helpers.go` uses and that are defined in other files
of the package, together with `strings.Title` of the Go standard library (whose result depends
on Unicode tables).  Nothing is assumed about them. -/
structure Externals where
  /-- The method `orderedMethods(d)`: the method names in a fixed order. -/
  orderedMethods : APIDescription → List String
  /-- The method `orderedTgTypes(d)`: the type names in a fixed order. -/
  orderedTgTypes : APIDescription → List String
  /-- The method `f.getPreferredType(d)`. -/
  getPreferredType : APIDescription → Field → Except String String
  /-- The function `isTgType(d, goType)`. -/
  isTgType : APIDescription → String → Bool
  /-- The method `tgMethod.GetReturnTypes(d)`. -/
  GetReturnTypes : APIDescription → MethodDescription → Except String (List String)
  /-- The method `tgType.receiverName()`. -/
  receiverName : TypeDescription → String
  /-- The method `tgMethod.optsName()`. -/
  optsName : MethodDescription → String
  /-- The function `snakeToTitle`. -/
  snakeToTitle : String → String
  /-- The function `snakeToCamel`. -/
  snakeToCamel : String → String
  /-- The function `titleToSnake`. -/
  titleToSnake : String → String
  /-- The function `getDefaultTypeVal(d, goType)`. -/
  getDefaultTypeVal : APIDescription → String → String
  /-- The function `isPointer(goType)`. -/
  isPointer : String → Bool
  /-- The constant `tgTypeFile`. -/
  tgTypeFile : String
  /-- The constant `tgTypeMessage`. -/
  tgTypeMessage : String
  /-- Go `strings.Title`. -/
  stringsTitle : String → String
  /-- The function `writeGenToFile(text, fileName)`: the error it returns, if any. -/
  writeGenToFile : String → String → Option String

/-! ## `getMethodFieldsTypeMatches` (direct matching) -/

/-- The identifier field chosen at lines 184-190. -/
def idFieldOf (E : Externals) (typeName : String) : String :=
  if typeName = E.tgTypeMessage then "message_id"
  else if typeName = E.tgTypeFile then "file_id"
  else "id"

/-- The function `getMethodFieldsTypeMatches`, lines 180-196. -/
def getMethodFieldsTypeMatches (E : Externals) (tgMethod : MethodDescription)
    (typeName : String) : MatchSet :=
  tgMethod.Fields.foldl
    (fun fields f =>
      if f.Name = E.titleToSnake typeName ++ "_id" ∨ f.Name = "id" then
        fields.set (E.titleToSnake typeName ++ "_id") (idFieldOf E typeName)
      else fields)
    []

/-! ## `getMethodFieldsSubtypeMatches` (subtype matching) -/

/-- The inner loop of `getMethodFieldsSubtypeMatches` (lines 160-175) for one type field `f`,
over the method fields still to visit. -/
def subtypeMatchesOfField (E : Externals) (d : APIDescription) (tgMethod : MethodDescription)
    (f : Field) (hasFromChat : Bool) :
    List Field → String → MatchSet → Except String (String × MatchSet)
  | [], repl, fields => .ok (repl, fields)
  | mf :: rest, repl, fields =>
    match E.getPreferredType d f with
    | .error err =>
      .error ("failed to get preferred type for field " ++ mf.Name ++ " of " ++ tgMethod.Name
        ++ ": " ++ err)
    | .ok prefType =>
      if E.isTgType d prefType = true ∧ f.Name ++ "_id" = mf.Name then
        if hasFromChat = true ∧ mf.Name = "chat_id" then
          subtypeMatchesOfField E d tgMethod f hasFromChat rest
            (stringsReplaceAll repl prefType) (fields.set "from_chat_id" (f.Name ++ ".Id"))
        else
          subtypeMatchesOfField E d tgMethod f hasFromChat rest
            (stringsReplaceAll repl prefType) (fields.set mf.Name (f.Name ++ ".Id"))
      else subtypeMatchesOfField E d tgMethod f hasFromChat rest repl fields

/-- The outer loop of `getMethodFieldsSubtypeMatches` (lines 154-176) over the type fields
still to visit. -/
def subtypeMatchesLoop (E : Externals) (d : APIDescription) (tgMethod : MethodDescription)
    (hasFromChat : Bool) : List Field → String → MatchSet → Except String (String × MatchSet)
  | [], repl, fields => .ok (repl, fields)
  | f :: rest, repl, fields =>
    if f.Name = "reply_to_message" then
      subtypeMatchesLoop E d tgMethod hasFromChat rest repl fields
    else
      match subtypeMatchesOfField E d tgMethod f hasFromChat tgMethod.Fields repl fields with
      | .error err => .error err
      | .ok (repl', fields') => subtypeMatchesLoop E d tgMethod hasFromChat rest repl' fields'

/-- The function `getMethodFieldsSubtypeMatches`, lines 153-178.  The Go function returns the
new name and updates the map in place; here the updated map is returned with the name. -/
def getMethodFieldsSubtypeMatches (E : Externals) (d : APIDescription)
    (tgMethod : MethodDescription) (tgType : TypeDescription) (repl : String)
    (hasFromChat : Bool) (fields : MatchSet) : Except String (String × MatchSet) :=
  subtypeMatchesLoop E d tgMethod hasFromChat tgType.Fields repl fields

/-! ## `generateHelperArguments` -/

/-- The default-fill statement written at lines 124-131 for an optional field `mf` bound to
`fName`. -/
def optsStatement (E : Externals) (d : APIDescription) (receiverName : String) (mf : Field)
    (prefType fName : String) : String :=
  "\n\tif opts." ++ E.snakeToTitle mf.Name ++ " == " ++ E.getDefaultTypeVal d prefType ++ " \x7b"
    ++ (if E.isPointer prefType = true then
          "\n\t\topts." ++ E.snakeToTitle mf.Name ++ " = &" ++ receiverName ++ "."
            ++ E.snakeToTitle fName
        else
          "\n\t\topts." ++ E.snakeToTitle mf.Name ++ " = " ++ receiverName ++ "."
            ++ E.snakeToTitle fName)
    ++ "\n\t\x7d"

/-- The loop of `generateHelperArguments` (lines 114-145) over the method fields still to
visit, with the three accumulators `funcCallArgList`, `funcDefArgList` and `optsContent`.
(The Go variable `hasOpts` is assigned in the loop and never read; it is left out.) -/
def generateHelperArgumentsLoop (E : Externals) (d : APIDescription)
    (tgMethod : MethodDescription) (receiverName : String) (fields : MatchSet) :
    List Field → List String → List String → String →
      Except String (List String × List String × String)
  | [], funcCallArgList, funcDefArgList, optsContent =>
    .ok (funcCallArgList, funcDefArgList, optsContent)
  | mf :: rest, funcCallArgList, funcDefArgList, optsContent =>
    match E.getPreferredType d mf with
    | .error err =>
      .error ("failed to get preferred type for field " ++ mf.Name ++ " of " ++ tgMethod.Name
        ++ ": " ++ err)
    | .ok prefType =>
      match fields.get? mf.Name with
      | some fName =>
        if mf.Required = false then
          generateHelperArgumentsLoop E d tgMethod receiverName fields rest
            funcCallArgList funcDefArgList
            (optsContent ++ optsStatement E d receiverName mf prefType fName)
        else
          generateHelperArgumentsLoop E d tgMethod receiverName fields rest
            (funcCallArgList ++ [receiverName ++ "." ++ E.snakeToTitle fName])
            funcDefArgList optsContent
      | none =>
        if mf.Required = false then
          generateHelperArgumentsLoop E d tgMethod receiverName fields rest
            funcCallArgList funcDefArgList optsContent
        else
          generateHelperArgumentsLoop E d tgMethod receiverName fields rest
            (funcCallArgList ++ [E.snakeToCamel mf.Name])
            (funcDefArgList ++ [E.snakeToCamel mf.Name ++ " " ++ prefType]) optsContent

/-- The function `generateHelperArguments`, lines 108-151: on success the triple
`(funcCallArgList, funcDefArgList, optsContent)`. -/
def generateHelperArguments (E : Externals) (d : APIDescription) (tgMethod : MethodDescription)
    (receiverName : String) (fields : MatchSet) :
    Except String (List String × List String × String) :=
  match generateHelperArgumentsLoop E d tgMethod receiverName fields tgMethod.Fields
      [] ["b *Bot"] "" with
  | .error err => .error err
  | .ok (funcCallArgList, funcDefArgList, optsContent) =>
    .ok (funcCallArgList ++ ["opts"], funcDefArgList ++ ["opts *" ++ E.optsName tgMethod],
      optsContent)

/-! ## The template `helperFunc` -/

/-- The record `helperFuncData`, lines 200-210. -/
structure helperFuncData where
  Receiver : String
  TypeName : String
  HelperName : String
  ReturnType : String
  FuncDefArgs : String
  Contents : String
  OptsName : String
  MethodName : String
  FuncCallArgs : String
deriving DecidableEq, Repr

/-- The text that `helperFuncTmpl.Execute` writes for the template `helperFunc`
(lines 212-223).  The action `{{- if .Contents}}` trims the line break and tab before it and
is taken when `Contents` is not the empty string; every field is a string and is written as
it is.  Executing this template on a `strings.Builder` cannot fail. -/
def helperFuncTmpl (data : helperFuncData) : String :=
  "\nfunc (" ++ data.Receiver ++ " " ++ data.TypeName ++ ") " ++ data.HelperName ++ "("
    ++ data.FuncDefArgs ++ ") (" ++ data.ReturnType ++ ", error) \x7b"
    ++ (if data.Contents = "" then ""
        else "\n\t\tif opts == nil \x7b\n\t\t\topts = &" ++ data.OptsName ++ "\x7b\x7d\n\t\t\x7d\n\t\t"
          ++ data.Contents ++ "\n\n\t")
    ++ "\n\treturn b." ++ data.MethodName ++ "(" ++ data.FuncCallArgs ++ ")\n\x7d\n"

/-! ## `generateHelperDef` -/

/-- The flag `hasFromChat` computed at lines 39-46: some method field is named
`from_chat_id`. -/
def hasFromChat (tgMethod : MethodDescription) : Bool :=
  tgMethod.Fields.any (fun x => decide (x.Name = "from_chat_id"))

/-- The body of the loop of `generateHelperDef` (lines 49-102) for one `typeName`: `none`
when the type is skipped by a `continue`, otherwise the text appended to `helperDef`. -/
def generateHelperForType (E : Externals) (d : APIDescription) (tgMethod : MethodDescription)
    (hasFromChat : Bool) (typeName : String) : Except String (Option String) :=
  if typeName = E.tgTypeFile then .ok none
  else
    let tgType := d.typeAt typeName
    let newMethodName := stringsReplaceFirst tgMethod.Name typeName
    if newMethodName = tgMethod.Name then .ok none
    else
      let fields := getMethodFieldsTypeMatches E tgMethod typeName
      if fields.length = 0 then .ok none
      else
        match getMethodFieldsSubtypeMatches E d tgMethod tgType newMethodName hasFromChat
            fields with
        | .error err => .error err
        | .ok (newMethodName, fields) =>
          let newMethodName := E.stringsTitle newMethodName
          match E.GetReturnTypes d tgMethod with
          | .error err =>
            .error ("failed to get return type for " ++ tgMethod.Name ++ ": " ++ err)
          | .ok ret =>
            let receiverName := E.receiverName tgType
            match generateHelperArguments E d tgMethod receiverName fields with
            | .error err => .error err
            | .ok (funcCallArgList, funcDefArgList, optsContent) =>
              .ok (some
                ("\n// " ++ newMethodName ++ " Helper method for Bot."
                  ++ E.stringsTitle tgMethod.Name
                  ++ helperFuncTmpl
                    { Receiver := receiverName
                      TypeName := typeName
                      HelperName := newMethodName
                      ReturnType := stringsJoin ret ", "
                      FuncDefArgs := stringsJoin funcDefArgList ", "
                      Contents := optsContent
                      OptsName := E.optsName tgMethod
                      MethodName := E.stringsTitle tgMethod.Name
                      FuncCallArgs := stringsJoin funcCallArgList ", " }))

/-- The loop of `generateHelperDef` (lines 48-103) over the type names still to visit, with
the text `helperDef` built so far. -/
def generateHelperDefLoop (E : Externals) (d : APIDescription) (tgMethod : MethodDescription)
    (hasFromChat : Bool) : List String → String → Except String String
  | [], helperDef => .ok helperDef
  | typeName :: rest, helperDef =>
    match generateHelperForType E d tgMethod hasFromChat typeName with
    | .error err => .error err
    | .ok none => generateHelperDefLoop E d tgMethod hasFromChat rest helperDef
    | .ok (some text) => generateHelperDefLoop E d tgMethod hasFromChat rest (helperDef ++ text)

/-- The function `generateHelperDef`, lines 37-106. -/
def generateHelperDef (E : Externals) (d : APIDescription) (tgMethod : MethodDescription) :
    Except String String :=
  generateHelperDefLoop E d tgMethod (hasFromChat tgMethod) (E.orderedTgTypes d) ""

/-! ## `generateHelpers` -/

/-- The header written at lines 11-17. -/
def helpersHeader : String :=
  "\n// THIS FILE IS AUTOGENERATED. DO NOT EDIT.\n// Regen by running 'go generate' in the repo root.\n\npackage gotgbot\n\n"

/-- The loop of `generateHelpers` (lines 19-32) over the method names still to visit, with
the text `helpers` built so far. -/
def generateHelpersLoop (E : Externals) (d : APIDescription) :
    List String → String → Except String String
  | [], helpers => .ok helpers
  | tgMethodName :: rest, helpers =>
    match generateHelperDef E d (d.methodAt tgMethodName) with
    | .error err =>
      .error ("failed to generate helpers for " ++ tgMethodName ++ ": " ++ err)
    | .ok helper =>
      if helper = "" then generateHelpersLoop E d rest helpers
      else generateHelpersLoop E d rest (helpers ++ helper)

/-- What one run of `generateHelpers` does: the error it returns (`none` for `nil`) and the
calls of `writeGenToFile` it made, in order, each with its text and file name. -/
structure Run where
  err : Option String
  writes : List (String × String)
deriving DecidableEq, Repr

/-- The function `generateHelpers`, lines 9-35. -/
def generateHelpers (E : Externals) (d : APIDescription) : Run :=
  match generateHelpersLoop E d (E.orderedMethods d) helpersHeader with
  | .error err => { err := some err, writes := [] }
  | .ok helpers =>
    { err := E.writeGenToFile helpers "gen_helpers.go"
      writes := [(helpers, "gen_helpers.go")] }

/-! ## What the argument lists should be -/

/-- The call argument of a required field: the receiver's accessor when the field is a key
of the match set, otherwise the parameter named after the field. -/
def callArgument (E : Externals) (receiverName : String) (fields : MatchSet) (mf : Field) :
    String :=
  match fields.get? mf.Name with
  | some fName => receiverName ++ "." ++ E.snakeToTitle fName
  | none => E.snakeToCamel mf.Name

/-- The call arguments of the method fields `fs`: one per required field, in order. -/
def callArguments (E : Externals) (receiverName : String) (fields : MatchSet)
    (fs : List Field) : List String :=
  (fs.filter (fun mf => mf.Required)).map (callArgument E receiverName fields)

/-- The signature entries of the method fields `fs`: one `name type` entry per required field
that is not a key of the match set, in order; `prefType` gives the preferred type. -/
def signatureParameters (E : Externals) (fields : MatchSet) (prefType : Field → String)
    (fs : List Field) : List String :=
  (fs.filter (fun mf => mf.Required && (fields.get? mf.Name).isNone)).map
    (fun mf => E.snakeToCamel mf.Name ++ " " ++ prefType mf)

/-- The default-fill statements of the method fields `fs`: one per optional field that is a
key of the match set, in order. -/
def fillStatements (E : Externals) (d : APIDescription) (receiverName : String)
    (fields : MatchSet) (prefType : Field → String) (fs : List Field) : List String :=
  fs.filterMap (fun mf =>
    if mf.Required = true then none
    else (fields.get? mf.Name).map (optsStatement E d receiverName mf (prefType mf)))

/-- The concatenation of a list of texts. -/
def concatAll (parts : List String) : String :=
  parts.foldr (fun a b => a ++ b) ""

/-! ## Two runs that consult the same things -/

/-- The external functions `E₁` on the schema `d₁` and `E₂` on the schema `d₂` give
`generateHelperDef` the same answers: the same type order, the same resolutions, the same
casing functions and constants, and the same entry for every type name. -/
structure SameAnswers (E₁ : Externals) (d₁ : APIDescription) (E₂ : Externals)
    (d₂ : APIDescription) : Prop where
  orderedTgTypes : E₁.orderedTgTypes d₁ = E₂.orderedTgTypes d₂
  getPreferredType : E₁.getPreferredType d₁ = E₂.getPreferredType d₂
  isTgType : E₁.isTgType d₁ = E₂.isTgType d₂
  GetReturnTypes : E₁.GetReturnTypes d₁ = E₂.GetReturnTypes d₂
  receiverName : E₁.receiverName = E₂.receiverName
  optsName : E₁.optsName = E₂.optsName
  snakeToTitle : E₁.snakeToTitle = E₂.snakeToTitle
  snakeToCamel : E₁.snakeToCamel = E₂.snakeToCamel
  titleToSnake : E₁.titleToSnake = E₂.titleToSnake
  getDefaultTypeVal : E₁.getDefaultTypeVal d₁ = E₂.getDefaultTypeVal d₂
  isPointer : E₁.isPointer = E₂.isPointer
  tgTypeFile : E₁.tgTypeFile = E₂.tgTypeFile
  tgTypeMessage : E₁.tgTypeMessage = E₂.tgTypeMessage
  stringsTitle : E₁.stringsTitle = E₂.stringsTitle
  typeAt : ∀ typeName, d₁.typeAt typeName = d₂.typeAt typeName

/-- Two match sets hold the same bindings: every key has the same entry, or none, in both,
whatever the order in which the entries are stored. -/
def sameBindings (fields₁ fields₂ : MatchSet) : Prop :=
  ∀ k, MatchSet.get? fields₁ k = MatchSet.get? fields₂ k

/-- Two results of subtype matching are the same up to the storage of the match set: the same
error, or the same name with the same bindings. -/
def sameOutcome : Except String (String × MatchSet) → Except String (String × MatchSet) → Prop
  | .ok (name₁, out₁), .ok (name₂, out₂) => name₁ = name₂ ∧ sameBindings out₁ out₂
  | .error err₁, .error err₂ => err₁ = err₂
  | _, _ => False

/-! ## The type names deleted from the candidate name -/

namespace Sample

/-- Modelled from the spec: `strings.Title` is not part of `helpers.go`.  A character is
a word separator when it is ASCII and neither a letter, a digit nor an underscore. -/
def isSeparator (c : Char) : Bool :=
  decide (c.val < 128) && !(c.isAlphanum || c = '_')

/-- Modelled from the spec: `strings.Title` on ASCII text, the first letter of every word
in upper case; `up` tells whether the previous character was a separator. -/
def titleChars : Bool → List Char → List Char
  | _, [] => []
  | up, c :: cs => (if up then c.toUpper else c) :: titleChars (isSeparator c) cs

/-- Modelled from the spec: `strings.Title` is not part of `helpers.go`. -/
def stringsTitle (s : String) : String := ⟨titleChars true s.data⟩

/-- Modelled from the spec: the casing utility `snakeToTitle` is not part of `helpers.go`.
Every underscore-separated part is title-cased and the parts are concatenated. -/
def snakeToTitleChars : Bool → List Char → List Char
  | _, [] => []
  | up, c :: cs =>
    if c = '_' then snakeToTitleChars true cs
    else (if up then c.toUpper else c) :: snakeToTitleChars (isSeparator c) cs

/-- Modelled from the spec: the casing utility `snakeToTitle` is not part of `helpers.go`. -/
def snakeToTitle (s : String) : String := ⟨snakeToTitleChars true s.data⟩

/-- Modelled from the spec: the casing utility `snakeToCamel` is not part of `helpers.go`.
It is `snakeToTitle` with the first character in lower case. -/
def snakeToCamel (s : String) : String :=
  match snakeToTitleChars true s.data with
  | [] => ""
  | c :: cs => ⟨c.toLower :: cs⟩

/-- Modelled from the spec: the casing utility `titleToSnake` is not part of `helpers.go`.
Every upper-case letter becomes lower case, preceded by an underscore except at the start. -/
def titleToSnakeChars : Bool → List Char → List Char
  | _, [] => []
  | first, c :: cs =>
    if c.isUpper ∧ first = false then '_' :: c.toLower :: titleToSnakeChars false cs
    else c.toLower :: titleToSnakeChars false cs

/-- Modelled from the spec: the casing utility `titleToSnake` is not part of `helpers.go`. -/
def titleToSnake (s : String) : String := ⟨titleToSnakeChars true s.data⟩

/-- Modelled from the spec: the Go type of an API type name (`toGoType` is not part of
`helpers.go`). -/
def toGoType (t : String) : String :=
  if t = "Integer" then "int64"
  else if t = "String" then "string"
  else if t = "Boolean" then "bool"
  else t

/-- Modelled from the spec: `getPreferredType` is not part of `helpers.go`.  A field with
exactly one type resolves to the Go form of that type; any other field does not resolve. -/
def getPreferredType (_d : APIDescription) (f : Field) : Except String String :=
  match f.Types with
  | [t] => .ok (toGoType t)
  | _ => .error "unable to choose a preferred type"

/-- Modelled from the spec: `isTgType` is not part of `helpers.go`.  A Go type is a declared
type when the schema has a type of that name. -/
def isTgType (d : APIDescription) (goType : String) : Bool :=
  d.Types.any (fun kv => decide (kv.1 = goType))

/-- Modelled from the spec: `GetReturnTypes` is not part of `helpers.go`.  The return types
resolve when there is at least one. -/
def GetReturnTypes (_d : APIDescription) (m : MethodDescription) : Except String (List String) :=
  match m.Returns with
  | [] => .error "no return type"
  | ts => .ok (ts.map toGoType)

/-- Modelled from the spec: `receiverName` is not part of `helpers.go`.  The receiver is
named by the upper-case letters of the type name, in lower case. -/
def receiverName (t : TypeDescription) : String :=
  ⟨(t.Name.data.filter Char.isUpper).map Char.toLower⟩

/-- Modelled from the spec: `optsName` is not part of `helpers.go`. -/
def optsName (m : MethodDescription) : String := stringsTitle m.Name ++ "Opts"

/-- Modelled from the spec: `getDefaultTypeVal` is not part of `helpers.go`. -/
def getDefaultTypeVal (_d : APIDescription) (goType : String) : String :=
  if goType = "int64" then "0"
  else if goType = "string" then "\"\""
  else if goType = "bool" then "false"
  else "nil"

/-- Modelled from the spec: `isPointer` is not part of `helpers.go`. -/
def isPointer (goType : String) : Bool :=
  match goType.data with
  | c :: _ => decide (c = '*')
  | [] => false

/-- Lexicographic comparison of two texts by code point: `a` comes strictly before `b`. -/
def charsBefore : List Char → List Char → Bool
  | _, [] => false
  | [], _ :: _ => true
  | a :: as, b :: bs =>
    if a.toNat < b.toNat then true
    else if b.toNat < a.toNat then false
    else charsBefore as bs

/-- Modelled from the spec: the Ordering Service sorts names lexicographically. -/
def sortNames (names : List String) : List String :=
  names.insertionSort (fun a b => charsBefore a.data b.data = true)

/-- The stand-ins, collected; `writeGenToFile` succeeds. -/
def externals : Externals where
  orderedMethods d := sortNames (d.Methods.map Prod.fst)
  orderedTgTypes d := sortNames (d.Types.map Prod.fst)
  getPreferredType := getPreferredType
  isTgType := isTgType
  GetReturnTypes := GetReturnTypes
  receiverName := receiverName
  optsName := optsName
  snakeToTitle := snakeToTitle
  snakeToCamel := snakeToCamel
  titleToSnake := titleToSnake
  getDefaultTypeVal := getDefaultTypeVal
  isPointer := isPointer
  tgTypeFile := "File"
  tgTypeMessage := "Message"
  stringsTitle := stringsTitle
  writeGenToFile _ _ := none

/-- The type `Chat`. -/
def chatType : TypeDescription :=
  { Name := "Chat"
    Fields := [⟨"id", ["Integer"], true⟩, ⟨"type", ["String"], true⟩,
      ⟨"title", ["String"], false⟩] }

/-- The type `User`. -/
def userType : TypeDescription :=
  { Name := "User"
    Fields := [⟨"id", ["Integer"], true⟩, ⟨"first_name", ["String"], true⟩] }

/-- The type `Message`, with a field `chat` of declared type `Chat`. -/
def messageType : TypeDescription :=
  { Name := "Message"
    Fields := [⟨"message_id", ["Integer"], true⟩, ⟨"from", ["User"], false⟩,
      ⟨"chat", ["Chat"], true⟩, ⟨"reply_to_message", ["Message"], false⟩,
      ⟨"text", ["String"], false⟩] }

/-- The method `sendMessage`. -/
def sendMessage : MethodDescription :=
  { Name := "sendMessage"
    Fields := [⟨"chat_id", ["Integer"], true⟩, ⟨"text", ["String"], true⟩,
      ⟨"reply_to_message_id", ["Integer"], false⟩]
    Returns := ["Message"] }

/-- The method `forwardMessage`. -/
def forwardMessage : MethodDescription :=
  { Name := "forwardMessage"
    Fields := [⟨"chat_id", ["Integer"], true⟩, ⟨"from_chat_id", ["Integer"], true⟩,
      ⟨"message_id", ["Integer"], true⟩]
    Returns := ["Message"] }

/-- A method `getUser` whose only field is named `id`. -/
def getUser : MethodDescription :=
  { Name := "getUser"
    Fields := [⟨"id", ["Integer"], true⟩]
    Returns := ["User"] }

/-- A type with a field `chat` and, after it, a field `from_chat`, both of declared type
`Chat`. -/
def transferType : TypeDescription :=
  { Name := "Transfer"
    Fields := [⟨"chat", ["Chat"], true⟩, ⟨"from_chat", ["Chat"], true⟩] }

/-- A type `Message` whose field `sender_chat` lists no type, so that its preferred type does
not resolve. -/
def brokenMessageType : TypeDescription :=
  { Name := "Message"
    Fields := [⟨"message_id", ["Integer"], true⟩, ⟨"sender_chat", [], false⟩] }

/-- The method `deleteMessage`. -/
def deleteMessage : MethodDescription :=
  { Name := "deleteMessage"
    Fields := [⟨"chat_id", ["Integer"], true⟩, ⟨"message_id", ["Integer"], true⟩]
    Returns := ["Boolean"] }

/-- A schema whose type `Message` has the unresolvable field `sender_chat`. -/
def brokenSchema : APIDescription :=
  { Types := [("Chat", chatType), ("Message", brokenMessageType)]
    Methods := [("deleteMessage", deleteMessage)] }

/-- A method `setChatPhoto` whose field `photo` lists two types, so that its preferred type
does not resolve. -/
def setChatPhoto : MethodDescription :=
  { Name := "setChatPhoto"
    Fields := [⟨"chat_id", ["Integer"], true⟩, ⟨"photo", ["InputFile", "String"], true⟩]
    Returns := ["Boolean"] }

/-- A schema in which `forwardMessage` generates a helper and `setChatPhoto`, which comes
later, fails. -/
def failingSchema : APIDescription :=
  { Types := [("Chat", chatType), ("Message", messageType)]
    Methods := [("forwardMessage", forwardMessage), ("setChatPhoto", setChatPhoto)] }

/-- The type `File`. -/
def fileType : TypeDescription :=
  { Name := "File"
    Fields := [⟨"file_id", ["String"], true⟩, ⟨"file_size", ["Integer"], false⟩] }

/-- The method `getFile`, whose name contains `File` and whose field is `file_id`. -/
def getFile : MethodDescription :=
  { Name := "getFile"
    Fields := [⟨"file_id", ["String"], true⟩]
    Returns := ["File"] }

/-- A schema with the type `File` and the method `getFile`. -/
def fileSchema : APIDescription :=
  { Types := [("File", fileType)]
    Methods := [("getFile", getFile)] }

/-- A type `CallbackQuery` with a field `message` of declared type `Message`. -/
def callbackQueryType : TypeDescription :=
  { Name := "CallbackQuery"
    Fields := [⟨"id", ["String"], true⟩, ⟨"message", ["Message"], false⟩] }

/-- A method `sendChatAction` whose optional field `reply_markup` lists two types, so that
its preferred type does not resolve. -/
def sendChatAction : MethodDescription :=
  { Name := "sendChatAction"
    Fields := [⟨"chat_id", ["Integer"], true⟩, ⟨"action", ["String"], true⟩,
      ⟨"reply_markup", ["InlineKeyboardMarkup", "ForceReply"], false⟩]
    Returns := ["Boolean"] }

/-- A schema with the types `Chat`, `Message`, `User` and the two methods. -/
def schema : APIDescription :=
  { Types := [("Message", messageType), ("Chat", chatType), ("User", userType)]
    Methods := [("sendMessage", sendMessage), ("forwardMessage", forwardMessage)] }

/-- The schema `schema` with the entries of its two maps stored in another order. -/
def schemaReordered : APIDescription :=
  { Types := [("User", userType), ("Chat", chatType), ("Message", messageType)]
    Methods := [("forwardMessage", forwardMessage), ("sendMessage", sendMessage)] }

/-- A type `Message` with a field `chat` of declared type `Chat` and, after it, a field
`from_chat` of declared type `Chat`. -/
def messageWithFromChat : TypeDescription :=
  { Name := "Message"
    Fields := [⟨"message_id", ["Integer"], true⟩, ⟨"chat", ["Chat"], true⟩,
      ⟨"from_chat", ["Chat"], false⟩] }

/-- A schema whose type `Message` is `messageWithFromChat`, with the method
`forwardMessage`. -/
def fromChatSchema : APIDescription :=
  { Types := [("Chat", chatType), ("Message", messageWithFromChat)]
    Methods := [("forwardMessage", forwardMessage)] }

/-- The method `pinChatMessage`, whose name contains both `Chat` and `Message`. -/
def pinChatMessage : MethodDescription :=
  { Name := "pinChatMessage"
    Fields := [⟨"chat_id", ["Integer"], true⟩, ⟨"message_id", ["Integer"], true⟩,
      ⟨"disable_notification", ["Boolean"], false⟩]
    Returns := ["Boolean"] }

/-- A schema with the types `Chat`, `Message`, `User` and the methods `deleteMessage` and
`pinChatMessage`. -/
def pinSchema : APIDescription :=
  { Types := [("User", userType), ("Message", messageType), ("Chat", chatType)]
    Methods := [("pinChatMessage", pinChatMessage), ("deleteMessage", deleteMessage)] }

end Sample

/-! ## The loop of `generateHelperArguments` -/

/-- When every field resolves, the loop appends to its three accumulators the call arguments,
the signature entries and the default-fill statements of the fields it visits. -/
theorem generateHelperArgumentsLoop_ok (E : Externals) (d : APIDescription)
    (tgMethod : MethodDescription) (receiverName : String) (fields : MatchSet)
    (prefType : Field → String) :
    ∀ (fs : List Field) (call defs : List String) (body : String),
      (∀ mf ∈ fs, E.getPreferredType d mf = .ok (prefType mf)) →
      generateHelperArgumentsLoop E d tgMethod receiverName fields fs call defs body =
        .ok (call ++ callArguments E receiverName fields fs,
          defs ++ signatureParameters E fields prefType fs,
          body ++ concatAll (fillStatements E d receiverName fields prefType fs)) := by
  intro fs
  induction fs with
  | nil =>
    intro call defs body _
    simp [generateHelperArgumentsLoop, callArguments, signatureParameters, fillStatements,
      concatAll]
  | cons mf rest ih =>
    intro call defs body h
    have hmf : E.getPreferredType d mf = .ok (prefType mf) := h mf (List.mem_cons_self _ _)
    have hrest : ∀ x ∈ rest, E.getPreferredType d x = .ok (prefType x) :=
      fun x hx => h x (List.mem_cons_of_mem _ hx)
    unfold generateHelperArgumentsLoop
    simp only [hmf]
    cases hg : fields.get? mf.Name with
    | some fName =>
      cases hr : mf.Required with
      | false =>
        simp only [if_true]
        rw [ih _ _ _ hrest]
        simp [callArguments, signatureParameters, fillStatements, concatAll, hg, hr,
          List.filter_cons, String.append_assoc]
      | true =>
        simp only [Bool.true_eq_false, if_false]
        rw [ih _ _ _ hrest]
        simp [callArguments, signatureParameters, fillStatements, concatAll, hg, hr,
          List.filter_cons, callArgument]
    | none =>
      cases hr : mf.Required with
      | false =>
        simp only [if_true]
        rw [ih _ _ _ hrest]
        simp [callArguments, signatureParameters, fillStatements, concatAll, hg, hr,
          List.filter_cons]
      | true =>
        simp only [Bool.true_eq_false, if_false]
        rw [ih _ _ _ hrest]
        simp [callArguments, signatureParameters, fillStatements, concatAll, hg, hr,
          List.filter_cons, callArgument]

/-- When every field resolves, `generateHelperArguments` succeeds with the three results
described by `callArguments`, `signatureParameters` and `fillStatements`. -/
theorem generateHelperArguments_ok (E : Externals) (d : APIDescription)
    (tgMethod : MethodDescription) (receiverName : String) (fields : MatchSet)
    (prefType : Field → String)
    (h : ∀ mf ∈ tgMethod.Fields, E.getPreferredType d mf = .ok (prefType mf)) :
    generateHelperArguments E d tgMethod receiverName fields =
      .ok (callArguments E receiverName fields tgMethod.Fields ++ ["opts"],
        "b *Bot" :: signatureParameters E fields prefType tgMethod.Fields
          ++ ["opts *" ++ E.optsName tgMethod],
        concatAll (fillStatements E d receiverName fields prefType tgMethod.Fields)) := by
  unfold generateHelperArguments
  rw [generateHelperArgumentsLoop_ok E d tgMethod receiverName fields prefType _ _ _ _ h]
  simp

/-! ## The loop of `generateHelperDef` -/

/-- The text that the loop body of `generateHelperDef` appends for one type: nothing when the
type is skipped. -/
theorem generateHelperDefLoop_ok (E : Externals) (d : APIDescription)
    (tgMethod : MethodDescription) (fromChat : Bool) :
    ∀ (types : List String) (helperDef : String),
      (∀ typeName ∈ types, ∀ err,
        generateHelperForType E d tgMethod fromChat typeName ≠ .error err) →
      generateHelperDefLoop E d tgMethod fromChat types helperDef =
        .ok (helperDef ++ concatAll (types.filterMap (fun typeName =>
          match generateHelperForType E d tgMethod fromChat typeName with
          | .ok (some text) => some text
          | _ => none))) := by
  intro types
  induction types with
  | nil => intro helperDef _; simp [generateHelperDefLoop, concatAll]
  | cons typeName rest ih =>
    intro helperDef h
    have hrest := fun x hx => h x (List.mem_cons_of_mem _ hx)
    unfold generateHelperDefLoop
    cases hstep : generateHelperForType E d tgMethod fromChat typeName with
    | error err => exact absurd hstep (h typeName (List.mem_cons_self _ _) err)
    | ok o =>
      cases o with
      | none => simp [ih _ hrest, hstep, List.filterMap_cons]
      | some text =>
        simp [ih _ hrest, hstep, List.filterMap_cons, concatAll, String.append_assoc]

/-! ## The skip decision of `generateHelperDef` -/

/-- C1, as the code has it: for a type other than `tgTypeFile`, the pair is skipped (no text,
no error) exactly when deleting the type name leaves the method name unchanged or the DIRECT
match set of `getMethodFieldsTypeMatches` is empty; a helper that is emitted needs both a
changed name and a non-empty direct match set; and when the pair raises no error, a helper is
emitted if and only if the name changes and the direct match set is non-empty. -/
theorem generateHelperForType_emits_iff (E : Externals) (d : APIDescription)
    (tgMethod : MethodDescription) (fromChat : Bool) (typeName : String)
    (hfile : typeName ≠ E.tgTypeFile) :
    (generateHelperForType E d tgMethod fromChat typeName = .ok none ↔
        (stringsReplaceFirst tgMethod.Name typeName = tgMethod.Name ∨
          getMethodFieldsTypeMatches E tgMethod typeName = [])) ∧
    (∀ text, generateHelperForType E d tgMethod fromChat typeName = .ok (some text) →
        stringsReplaceFirst tgMethod.Name typeName ≠ tgMethod.Name ∧
          getMethodFieldsTypeMatches E tgMethod typeName ≠ []) ∧
    ((∀ err, generateHelperForType E d tgMethod fromChat typeName ≠ .error err) →
      ((∃ text, generateHelperForType E d tgMethod fromChat typeName = .ok (some text)) ↔
        (stringsReplaceFirst tgMethod.Name typeName ≠ tgMethod.Name ∧
          getMethodFieldsTypeMatches E tgMethod typeName ≠ []))) := by
  have key : generateHelperForType E d tgMethod fromChat typeName = .ok none ↔
      (stringsReplaceFirst tgMethod.Name typeName = tgMethod.Name ∨
        getMethodFieldsTypeMatches E tgMethod typeName = []) := by
    unfold generateHelperForType
    simp only [if_neg hfile]
    by_cases h1 : stringsReplaceFirst tgMethod.Name typeName = tgMethod.Name
    · simp [h1]
    · by_cases h2 : getMethodFieldsTypeMatches E tgMethod typeName = []
      · simp [h1, h2]
      · have h3 : (getMethodFieldsTypeMatches E tgMethod typeName).length ≠ 0 := by
          simpa [List.length_eq_zero] using h2
        simp only [if_neg h1, if_neg h3, h1, h2, or_self, iff_false]
        cases h4 : getMethodFieldsSubtypeMatches E d tgMethod (d.typeAt typeName)
            (stringsReplaceFirst tgMethod.Name typeName) fromChat
            (getMethodFieldsTypeMatches E tgMethod typeName) with
        | error e => simp
        | ok p =>
          obtain ⟨n, fs⟩ := p
          cases h5 : E.GetReturnTypes d tgMethod with
          | error e => simp
          | ok ret =>
            cases h6 : generateHelperArguments E d tgMethod (E.receiverName (d.typeAt typeName))
                fs with
            | error e => simp [h6]
            | ok t => obtain ⟨a, b, c⟩ := t; simp [h6]
  refine ⟨key, ?_, ?_⟩
  · intro text h
    have hne : generateHelperForType E d tgMethod fromChat typeName ≠ .ok none := by
      rw [h]; intro h'; cases h'
    rw [Ne, key, not_or] at hne
    exact hne
  · intro hno
    constructor
    · rintro ⟨text, h⟩
      have hne : generateHelperForType E d tgMethod fromChat typeName ≠ .ok none := by
        rw [h]; intro h'; cases h'
      rw [Ne, key, not_or] at hne
      exact hne
    · intro hc
      have hne : generateHelperForType E d tgMethod fromChat typeName ≠ .ok none := by
        rw [Ne, key, not_or]; exact hc
      cases hres : generateHelperForType E d tgMethod fromChat typeName with
      | error err => exact absurd hres (hno err)
      | ok o =>
        cases o with
        | none => exact absurd hres hne
        | some text => exact ⟨text, rfl⟩

/-- C1 fails as stated: for `sendMessage` and the type `Message` the name changes (to `send`)
and subtype matching alone would bind `chat_id` to `chat.Id`, so the combined match set is not
empty, yet no method field is named `message_id` or `id`, the pair is skipped and
`generateHelperDef` emits nothing. -/
theorem generateHelperForType_subtype_only_skipped :
    "Message" ≠ Sample.externals.tgTypeFile ∧
    stringsReplaceFirst Sample.sendMessage.Name "Message" = "send" ∧
    "send" ≠ Sample.sendMessage.Name ∧
    getMethodFieldsTypeMatches Sample.externals Sample.sendMessage "Message" = [] ∧
    getMethodFieldsSubtypeMatches Sample.externals Sample.schema Sample.sendMessage
        (Sample.schema.typeAt "Message") "send" (hasFromChat Sample.sendMessage)
        (getMethodFieldsTypeMatches Sample.externals Sample.sendMessage "Message")
      = .ok ("send", [("chat_id", "chat.Id")]) ∧
    generateHelperForType Sample.externals Sample.schema Sample.sendMessage
        (hasFromChat Sample.sendMessage) "Message" = .ok none ∧
    generateHelperDef Sample.externals Sample.schema Sample.sendMessage = .ok "" := by
  refine ⟨by decide, by decide, by decide, by decide, by decide, by decide, by decide⟩

/-- A witness of `generateHelperForType_emits_iff`: `forwardMessage` on `Message`. -/
theorem generateHelperForType_emits_iff_witness :
    "Message" ≠ Sample.externals.tgTypeFile ∧
    (∃ text, generateHelperForType Sample.externals Sample.schema Sample.forwardMessage true
        "Message" = .ok (some text)) :=
  ⟨by decide,
    ((generateHelperForType_emits_iff Sample.externals Sample.schema Sample.forwardMessage true
        "Message" (by decide)).2.2
      (by intro err h; revert h; rw [show generateHelperForType Sample.externals Sample.schema Sample.forwardMessage true "Message" = .ok (some "\n// Forward Helper method for Bot.ForwardMessage\nfunc (m Message) Forward(b *Bot, chatId int64, opts *ForwardMessageOpts) (Message, error) \x7b\n\treturn b.ForwardMessage(chatId, m.Chat.Id, m.MessageId, opts)\n\x7d\n") from by rfl]; intro h; cases h)).2
      ⟨by decide, by decide⟩⟩

/-! ## The example `sendMessage` on `Chat` -/

/-- C2 fails as stated: the name `sendMessage` does not contain `Chat`, so on a schema with
the types `Chat`, `Message` and `User` the pair (`sendMessage`, `Chat`) is skipped at the name
check and `generateHelperDef` emits no helper at all for `sendMessage`. -/
theorem sendMessage_no_helper_on_Chat :
    Sample.externals.orderedTgTypes Sample.schema = ["Chat", "Message", "User"] ∧
    stringsReplaceFirst Sample.sendMessage.Name "Chat" = Sample.sendMessage.Name ∧
    generateHelperForType Sample.externals Sample.schema Sample.sendMessage
        (hasFromChat Sample.sendMessage) "Chat" = .ok none ∧
    generateHelperDef Sample.externals Sample.schema Sample.sendMessage = .ok "" := by
  refine ⟨by decide, by decide, by decide, by decide⟩

/-- C2, as the code has it: for a method named `sendMessage` with the fields `chat_id`
(required), `text` (required) and `reply_to_message_id` (optional), the type `Chat` is skipped
by `generateHelperDef`, whatever the schema; the direct match set of the pair is
`chat_id -> id`, and on that match set `generateHelperArguments` gives the signature
(`b *Bot`, `text`, `opts`), the call arguments (receiver`.Id`, `text`, `opts`) and an empty
default-fill body. -/
theorem sendMessage_on_Chat (E : Externals) (d : APIDescription) (m : MethodDescription)
    (fromChat : Bool) (receiver pChat pText pReply : String) (t1 t2 t3 : List String)
    (hname : m.Name = "sendMessage")
    (hfields : m.Fields = [⟨"chat_id", t1, true⟩, ⟨"text", t2, true⟩,
      ⟨"reply_to_message_id", t3, false⟩])
    (hsnake : E.titleToSnake "Chat" = "chat")
    (hmsg : E.tgTypeMessage ≠ "Chat") (hfile : E.tgTypeFile ≠ "Chat")
    (h1 : E.getPreferredType d ⟨"chat_id", t1, true⟩ = .ok pChat)
    (h2 : E.getPreferredType d ⟨"text", t2, true⟩ = .ok pText)
    (h3 : E.getPreferredType d ⟨"reply_to_message_id", t3, false⟩ = .ok pReply) :
    generateHelperForType E d m fromChat "Chat" = .ok none ∧
    getMethodFieldsTypeMatches E m "Chat" = [("chat_id", "id")] ∧
    generateHelperArguments E d m receiver (getMethodFieldsTypeMatches E m "Chat") =
      .ok ([receiver ++ "." ++ E.snakeToTitle "id", E.snakeToCamel "text", "opts"],
        ["b *Bot", E.snakeToCamel "text" ++ " " ++ pText, "opts *" ++ E.optsName m], "") := by
  have hdirect : getMethodFieldsTypeMatches E m "Chat" = [("chat_id", "id")] := by
    simp [getMethodFieldsTypeMatches, hfields, hsnake, idFieldOf, Ne.symm hmsg, Ne.symm hfile,
      MatchSet.set]
  refine ⟨?_, hdirect, ?_⟩
  · unfold generateHelperForType
    have : stringsReplaceFirst m.Name "Chat" = m.Name := by rw [hname]; decide
    simp [this]
  · rw [hdirect]
    simp [generateHelperArguments, generateHelperArgumentsLoop, hfields, h1, h2, h3,
      MatchSet.get?]

/-- A witness of `sendMessage_on_Chat`: the sample method and stand-ins. -/
theorem sendMessage_on_Chat_witness :
    generateHelperForType Sample.externals Sample.schema Sample.sendMessage false "Chat"
      = .ok none ∧
    getMethodFieldsTypeMatches Sample.externals Sample.sendMessage "Chat" = [("chat_id", "id")] ∧
    generateHelperArguments Sample.externals Sample.schema Sample.sendMessage "c"
        (getMethodFieldsTypeMatches Sample.externals Sample.sendMessage "Chat") =
      .ok (["c" ++ "." ++ Sample.externals.snakeToTitle "id",
          Sample.externals.snakeToCamel "text", "opts"],
        ["b *Bot", Sample.externals.snakeToCamel "text" ++ " " ++ "string",
          "opts *" ++ Sample.externals.optsName Sample.sendMessage], "") :=
  sendMessage_on_Chat Sample.externals Sample.schema Sample.sendMessage false "c"
    "int64" "string" "int64" ["Integer"] ["String"] ["Integer"]
    rfl rfl (by decide) (by decide) (by decide) (by decide) (by decide) (by decide)

/-! ## A method field named `id` -/

/-- C3 at a failing input: for the method `getUser`, whose only field is the required field
`id`, and the type `User`, the direct match set has the single key `user_id`, the field `id`
is not a key of it, and the helper built from it takes `id` as an explicit parameter and
passes it on instead of the receiver's identifier. -/
theorem getUser_id_field_not_bound :
    getMethodFieldsTypeMatches Sample.externals Sample.getUser "User" = [("user_id", "id")] ∧
    MatchSet.get? (getMethodFieldsTypeMatches Sample.externals Sample.getUser "User") "id"
      = none ∧
    generateHelperArguments Sample.externals Sample.schema Sample.getUser "u"
        (getMethodFieldsTypeMatches Sample.externals Sample.getUser "User") =
      .ok (["id", "opts"], ["b *Bot", "id int64", "opts *GetUserOpts"], "") ∧
    generateHelperForType Sample.externals Sample.schema Sample.getUser
        (hasFromChat Sample.getUser) "User" =
      .ok (some ("\n// Get Helper method for Bot.GetUser\nfunc (u User) Get(b *Bot, id int64, opts *GetUserOpts) (User, error) \x7b\n\treturn b.GetUser(id, opts)\n\x7d\n")) := by
  refine ⟨by decide, by decide, by decide, by rfl⟩

/-! ## The signature and the call arguments -/

/-- C4: when every method field's preferred type resolves (to `prefType mf`),
`generateHelperArguments` succeeds and its signature list is `b *Bot`, then one entry
`camel(name) prefType` for each required field whose name is not a key of the match set, in
the method's order, then `opts *optsName`; fields that are keys of the match set and optional
fields have no entry. -/
theorem generateHelperArguments_signature (E : Externals) (d : APIDescription)
    (tgMethod : MethodDescription) (receiverName : String) (fields : MatchSet)
    (prefType : Field → String)
    (h : ∀ mf ∈ tgMethod.Fields, E.getPreferredType d mf = .ok (prefType mf)) :
    ∃ funcCallArgList optsContent,
      generateHelperArguments E d tgMethod receiverName fields =
        .ok (funcCallArgList,
          ["b *Bot"]
            ++ (tgMethod.Fields.filter
                  (fun mf => mf.Required && (fields.get? mf.Name).isNone)).map
                (fun mf => E.snakeToCamel mf.Name ++ " " ++ prefType mf)
            ++ ["opts *" ++ E.optsName tgMethod],
          optsContent) :=
  ⟨_, _, by rw [generateHelperArguments_ok E d tgMethod receiverName fields prefType h]; rfl⟩

/-- A witness of `generateHelperArguments_signature`: `sendMessage` with `chat_id` bound. -/
theorem generateHelperArguments_signature_witness :
    (∀ mf ∈ Sample.sendMessage.Fields,
      Sample.externals.getPreferredType Sample.schema mf
        = .ok (Sample.toGoType (mf.Types.headD ""))) ∧
    ∃ funcCallArgList optsContent,
      generateHelperArguments Sample.externals Sample.schema Sample.sendMessage "c"
          [("chat_id", "id")] =
        .ok (funcCallArgList,
          ["b *Bot"]
            ++ (Sample.sendMessage.Fields.filter
                  (fun mf => mf.Required
                    && (MatchSet.get? [("chat_id", "id")] mf.Name).isNone)).map
                (fun mf => Sample.externals.snakeToCamel mf.Name ++ " "
                  ++ Sample.toGoType (mf.Types.headD ""))
            ++ ["opts *" ++ Sample.externals.optsName Sample.sendMessage],
          optsContent) :=
  ⟨by decide,
    generateHelperArguments_signature Sample.externals Sample.schema Sample.sendMessage "c"
      [("chat_id", "id")] (fun mf => Sample.toGoType (mf.Types.headD "")) (by decide)⟩

/-- C5: when every method field's preferred type resolves, `generateHelperArguments` succeeds
and its call argument list has one entry per required method field, in the method's order
(`receiver.Title(binding)` when the field name is a key of the match set, the camel-cased
field name otherwise), no entry for an optional field, and `opts` as last entry; for a method
without fields the list is just `opts`. -/
theorem generateHelperArguments_call_list (E : Externals) (d : APIDescription)
    (tgMethod : MethodDescription) (receiverName : String) (fields : MatchSet)
    (prefType : Field → String)
    (h : ∀ mf ∈ tgMethod.Fields, E.getPreferredType d mf = .ok (prefType mf)) :
    (∃ funcDefArgList optsContent,
      generateHelperArguments E d tgMethod receiverName fields =
        .ok ((tgMethod.Fields.filter (fun mf => mf.Required)).map
              (fun mf =>
                match fields.get? mf.Name with
                | some fName => receiverName ++ "." ++ E.snakeToTitle fName
                | none => E.snakeToCamel mf.Name)
            ++ ["opts"],
          funcDefArgList, optsContent)) ∧
    (tgMethod.Fields = [] →
      generateHelperArguments E d tgMethod receiverName fields =
        .ok (["opts"], ["b *Bot", "opts *" ++ E.optsName tgMethod], "")) := by
  have hok := generateHelperArguments_ok E d tgMethod receiverName fields prefType h
  refine ⟨⟨_, _, by rw [hok]; rfl⟩, fun hnil => ?_⟩
  rw [hok, hnil]
  rfl

/-- A witness of `generateHelperArguments_call_list`: `sendMessage` with `chat_id` bound. -/
theorem generateHelperArguments_call_list_witness :
    (∀ mf ∈ Sample.sendMessage.Fields,
      Sample.externals.getPreferredType Sample.schema mf
        = .ok (Sample.toGoType (mf.Types.headD ""))) ∧
    ∃ funcDefArgList optsContent,
      generateHelperArguments Sample.externals Sample.schema Sample.sendMessage "c"
          [("chat_id", "id")] =
        .ok ((Sample.sendMessage.Fields.filter (fun mf => mf.Required)).map
              (fun mf =>
                match MatchSet.get? [("chat_id", "id")] mf.Name with
                | some fName => "c" ++ "." ++ Sample.externals.snakeToTitle fName
                | none => Sample.externals.snakeToCamel mf.Name)
            ++ ["opts"],
          funcDefArgList, optsContent) :=
  ⟨by decide,
    (generateHelperArguments_call_list Sample.externals Sample.schema Sample.sendMessage "c"
      [("chat_id", "id")] (fun mf => Sample.toGoType (mf.Types.headD "")) (by decide)).1⟩

/-! ## The field `reply_to_message` -/

/-- The loop of subtype matching gives the same result on a field list and on that list
without the fields named `reply_to_message`. -/
theorem subtypeMatchesLoop_filter (E : Externals) (d : APIDescription)
    (tgMethod : MethodDescription) (fromChat : Bool) :
    ∀ (fs : List Field) (repl : String) (fields : MatchSet),
      subtypeMatchesLoop E d tgMethod fromChat fs repl fields =
        subtypeMatchesLoop E d tgMethod fromChat
          (fs.filter (fun f => decide (f.Name ≠ "reply_to_message"))) repl fields := by
  intro fs
  induction fs with
  | nil => intro repl fields; rfl
  | cons f rest ih =>
    intro repl fields
    by_cases hf : f.Name = "reply_to_message"
    · simp only [subtypeMatchesLoop, if_pos hf, List.filter_cons, ne_eq, hf, not_true_eq_false,
        decide_False, Bool.false_eq_true, if_false]
      exact ih repl fields
    · simp only [subtypeMatchesLoop, if_neg hf, List.filter_cons, ne_eq, hf, not_false_eq_true,
        decide_True, if_true]
      cases subtypeMatchesOfField E d tgMethod f fromChat tgMethod.Fields repl fields with
      | error err => rfl
      | ok p => exact ih p.1 p.2

/-- C6: `getMethodFieldsSubtypeMatches` gives the same result (the same name and match set, or
the same error) on a type and on that type with every field named `reply_to_message`
removed. -/
theorem getMethodFieldsSubtypeMatches_reply_to_message (E : Externals) (d : APIDescription)
    (tgMethod : MethodDescription) (tgType : TypeDescription) (repl : String)
    (fromChat : Bool) (fields : MatchSet) :
    getMethodFieldsSubtypeMatches E d tgMethod tgType repl fromChat fields =
      getMethodFieldsSubtypeMatches E d tgMethod
        { tgType with
          Fields := tgType.Fields.filter (fun f => decide (f.Name ≠ "reply_to_message")) }
        repl fromChat fields := by
  unfold getMethodFieldsSubtypeMatches
  exact subtypeMatchesLoop_filter E d tgMethod fromChat tgType.Fields repl fields

/-! ## The keys written by subtype matching -/

/-- Two texts that agree after the same suffix is appended are equal. -/
theorem string_append_right_cancel {a b c : String} (h : a ++ c = b ++ c) : a = b := by
  have hd := congrArg String.data h
  simp only [String.data_append] at hd
  exact String.ext (List.append_cancel_right hd)

/-- Reading a key after a write: the written value at the written key, the old entry at any
other key. -/
theorem MatchSet.get?_set (fields : MatchSet) (k v k' : String) :
    MatchSet.get? (MatchSet.set fields k v) k' =
      if k = k' then some v else MatchSet.get? fields k' := by
  induction fields with
  | nil => simp [MatchSet.set, MatchSet.get?]
  | cons kv rest ih =>
    obtain ⟨a, b⟩ := kv
    by_cases hak : a = k
    · subst hak
      by_cases hk : a = k' <;> simp [MatchSet.set, MatchSet.get?, hk]
    · by_cases hk : k = k'
      · subst hk
        simp [MatchSet.set, MatchSet.get?, hak, ih]
      · by_cases hak' : a = k'
        · subst hak'
          simp [MatchSet.set, MatchSet.get?, hak, hk]
        · simp [MatchSet.set, MatchSet.get?, hak, hak', hk, ih]

/-- The inner loop leaves a key alone when no visited method field is recorded under it. -/
theorem subtypeMatchesOfField_untouched (E : Externals) (d : APIDescription)
    (tgMethod : MethodDescription) (f : Field) (fromChat : Bool) (k : String) :
    ∀ (fs : List Field) (repl : String) (fields : MatchSet) (name : String) (out : MatchSet),
      (∀ mf ∈ fs, (if fromChat = true ∧ mf.Name = "chat_id" then "from_chat_id" else mf.Name)
        ≠ k) →
      subtypeMatchesOfField E d tgMethod f fromChat fs repl fields = .ok (name, out) →
      MatchSet.get? out k = MatchSet.get? fields k := by
  intro fs
  induction fs with
  | nil =>
    intro repl fields name out _ h
    simp only [subtypeMatchesOfField, Except.ok.injEq, Prod.mk.injEq] at h
    rw [h.2]
  | cons mf rest ih =>
    intro repl fields name out hk h
    have hmf := hk mf (List.mem_cons_self _ _)
    have hrest := fun x hx => hk x (List.mem_cons_of_mem _ hx)
    unfold subtypeMatchesOfField at h
    cases hp : E.getPreferredType d f with
    | error err => rw [hp] at h; cases h
    | ok p =>
      rw [hp] at h
      simp only at h
      split at h
      · split at h
        · rename_i hc
          rw [ih _ _ _ _ hrest h, MatchSet.get?_set]
          rw [if_pos hc] at hmf
          rw [if_neg hmf]
        · rename_i hc
          rw [ih _ _ _ _ hrest h, MatchSet.get?_set]
          rw [if_neg hc] at hmf
          rw [if_neg hmf]
      · exact ih _ _ _ _ hrest h

/-- The outer loop leaves a key alone when no method field is recorded under it. -/
theorem subtypeMatchesLoop_untouched (E : Externals) (d : APIDescription)
    (tgMethod : MethodDescription) (fromChat : Bool) (k : String)
    (hk : ∀ mf ∈ tgMethod.Fields,
      (if fromChat = true ∧ mf.Name = "chat_id" then "from_chat_id" else mf.Name) ≠ k) :
    ∀ (gs : List Field) (repl : String) (fields : MatchSet) (name : String) (out : MatchSet),
      subtypeMatchesLoop E d tgMethod fromChat gs repl fields = .ok (name, out) →
      MatchSet.get? out k = MatchSet.get? fields k := by
  intro gs
  induction gs with
  | nil =>
    intro repl fields name out h
    simp only [subtypeMatchesLoop, Except.ok.injEq, Prod.mk.injEq] at h
    rw [h.2]
  | cons g rest ih =>
    intro repl fields name out h
    unfold subtypeMatchesLoop at h
    split at h
    · exact ih _ _ _ _ h
    · cases hin : subtypeMatchesOfField E d tgMethod g fromChat tgMethod.Fields repl fields with
      | error err => rw [hin] at h; cases h
      | ok p =>
        obtain ⟨r', f'⟩ := p
        rw [hin] at h
        simp only at h
        rw [ih _ _ _ _ h]
        exact subtypeMatchesOfField_untouched E d tgMethod g fromChat k _ _ _ _ _ hk hin

/-- The inner loop of a type field `g` keeps the entry `chat.Id` of a key `k`, provided
that every write of `g` under `k` writes `chat.Id`. -/
theorem subtypeMatchesOfField_keeps (E : Externals) (d : APIDescription)
    (tgMethod : MethodDescription) (g : Field) (fromChat : Bool) (k : String)
    (hw : ∀ (mf : Field) (p : String), E.getPreferredType d g = .ok p →
      E.isTgType d p = true → g.Name ++ "_id" = mf.Name →
      (if fromChat = true ∧ mf.Name = "chat_id" then "from_chat_id" else mf.Name) = k →
      g.Name ++ ".Id" = "chat.Id") :
    ∀ (fs : List Field) (repl : String) (fields : MatchSet) (name : String) (out : MatchSet),
      subtypeMatchesOfField E d tgMethod g fromChat fs repl fields = .ok (name, out) →
      MatchSet.get? fields k = some "chat.Id" →
      MatchSet.get? out k = some "chat.Id" := by
  intro fs
  induction fs with
  | nil =>
    intro repl fields name out h hin
    simp only [subtypeMatchesOfField, Except.ok.injEq, Prod.mk.injEq] at h
    rw [← h.2]; exact hin
  | cons mf rest ih =>
    intro repl fields name out h hin
    unfold subtypeMatchesOfField at h
    cases hp : E.getPreferredType d g with
    | error err => rw [hp] at h; cases h
    | ok p =>
      rw [hp] at h
      simp only at h
      by_cases hcond : E.isTgType d p = true ∧ g.Name ++ "_id" = mf.Name
      · rw [if_pos hcond] at h
        have hval := hw mf p hp hcond.1 hcond.2
        by_cases hc : fromChat = true ∧ mf.Name = "chat_id"
        · rw [if_pos hc] at h hval
          refine ih _ _ _ _ h ?_
          rw [MatchSet.get?_set]
          by_cases hk : "from_chat_id" = k
          · rw [if_pos hk, hval hk]
          · rw [if_neg hk]; exact hin
        · rw [if_neg hc] at h hval
          refine ih _ _ _ _ h ?_
          rw [MatchSet.get?_set]
          by_cases hk : mf.Name = k
          · rw [if_pos hk, hval hk]
          · rw [if_neg hk]; exact hin
      · rw [if_neg hcond] at h
        exact ih _ _ _ _ h hin

/-- What the writes of a type field record under the key that stands for `chat_id`: always
`chat.Id`, unless the field is a declared-type field named `from_chat` while the flag is
set. -/
theorem subtypeMatches_write_value (E : Externals) (d : APIDescription) (g : Field)
    (fromChat : Bool)
    (hg : fromChat = true → g.Name = "from_chat" →
      ∀ q, E.getPreferredType d g = .ok q → E.isTgType d q = false)
    (mf : Field) (p : String) (hp : E.getPreferredType d g = .ok p)
    (htg : E.isTgType d p = true) (hname : g.Name ++ "_id" = mf.Name)
    (hkey : (if fromChat = true ∧ mf.Name = "chat_id" then "from_chat_id" else mf.Name)
      = (if fromChat = true then "from_chat_id" else "chat_id")) :
    g.Name ++ ".Id" = "chat.Id" := by
  by_cases hchat : mf.Name = "chat_id"
  · have hgn : g.Name = "chat" := by
      apply string_append_right_cancel (c := "_id")
      rw [hname, hchat]; rfl
    rw [hgn]; rfl
  · cases fromChat with
    | true =>
      simp only [hchat, and_false, if_false, if_true] at hkey
      have hgn : g.Name = "from_chat" := by
        apply string_append_right_cancel (c := "_id")
        rw [hname, hkey]; rfl
      have hfalse := hg rfl hgn p hp
      rw [hfalse] at htg
      cases htg
    | false =>
      simp only [Bool.false_eq_true, false_and, if_false] at hkey
      exact absurd hkey hchat

/-- The inner loop of a declared-type field named `chat` records `chat.Id` under the key that
stands for `chat_id`, as soon as the method has a field `chat_id`. -/
theorem subtypeMatchesOfField_binds (E : Externals) (d : APIDescription)
    (tgMethod : MethodDescription) (f : Field) (fromChat : Bool) (p : String)
    (hp : E.getPreferredType d f = .ok p) (htg : E.isTgType d p = true)
    (hname : f.Name ++ "_id" = "chat_id") :
    ∀ (fs : List Field) (repl : String) (fields : MatchSet) (name : String) (out : MatchSet),
      subtypeMatchesOfField E d tgMethod f fromChat fs repl fields = .ok (name, out) →
      (MatchSet.get? fields (if fromChat = true then "from_chat_id" else "chat_id")
          = some "chat.Id" ∨ ∃ mf ∈ fs, mf.Name = "chat_id") →
      MatchSet.get? out (if fromChat = true then "from_chat_id" else "chat_id")
        = some "chat.Id" := by
  have hfn : f.Name = "chat" := by
    apply string_append_right_cancel (c := "_id")
    rw [hname]; rfl
  intro fs
  induction fs with
  | nil =>
    intro repl fields name out h hin
    simp only [subtypeMatchesOfField, Except.ok.injEq, Prod.mk.injEq] at h
    rcases hin with hin | ⟨mf, hmf, _⟩
    · rw [← h.2]; exact hin
    · cases hmf
  | cons mf rest ih =>
    intro repl fields name out h hin
    unfold subtypeMatchesOfField at h
    rw [hp] at h
    simp only at h
    by_cases hmfn : mf.Name = "chat_id"
    · rw [if_pos ⟨htg, by rw [hname, hmfn]⟩] at h
      cases fromChat with
      | true =>
        rw [if_pos ⟨rfl, hmfn⟩] at h
        refine ih _ _ _ _ h (Or.inl ?_)
        rw [MatchSet.get?_set, hfn]; simp
      | false =>
        rw [if_neg (by simp)] at h
        refine ih _ _ _ _ h (Or.inl ?_)
        rw [MatchSet.get?_set, hfn, hmfn]; simp
    · rw [if_neg (by rw [hname]; exact fun hc => hmfn hc.2.symm)] at h
      refine ih _ _ _ _ h ?_
      rcases hin with hin | ⟨x, hx, hxn⟩
      · exact Or.inl hin
      · rcases List.mem_cons.mp hx with hx | hx
        · subst hx; exact absurd hxn hmfn
        · exact Or.inr ⟨x, hx, hxn⟩

/-- The outer loop records `chat.Id` under the key that stands for `chat_id` when the type has
a declared-type field named `chat` and the method a field `chat_id`. -/
theorem subtypeMatchesLoop_binds (E : Externals) (d : APIDescription)
    (tgMethod : MethodDescription) (fromChat : Bool)
    (hm : ∃ mf ∈ tgMethod.Fields, mf.Name = "chat_id") :
    ∀ (gs : List Field) (repl : String) (fields : MatchSet) (name : String) (out : MatchSet),
      (fromChat = true → ∀ g ∈ gs, g.Name = "from_chat" →
        ∀ q, E.getPreferredType d g = .ok q → E.isTgType d q = false) →
      subtypeMatchesLoop E d tgMethod fromChat gs repl fields = .ok (name, out) →
      (MatchSet.get? fields (if fromChat = true then "from_chat_id" else "chat_id")
          = some "chat.Id" ∨
        ∃ f ∈ gs, ∃ p, E.getPreferredType d f = .ok p ∧ E.isTgType d p = true ∧
          f.Name ++ "_id" = "chat_id") →
      MatchSet.get? out (if fromChat = true then "from_chat_id" else "chat_id")
        = some "chat.Id" := by
  intro gs
  induction gs with
  | nil =>
    intro repl fields name out _ h hin
    simp only [subtypeMatchesLoop, Except.ok.injEq, Prod.mk.injEq] at h
    rcases hin with hin | ⟨f, hf, _⟩
    · rw [← h.2]; exact hin
    · cases hf
  | cons g rest ih =>
    intro repl fields name out hg h hin
    have hgrest : fromChat = true → ∀ x ∈ rest, x.Name = "from_chat" →
        ∀ q, E.getPreferredType d x = .ok q → E.isTgType d q = false :=
      fun hb x hx => hg hb x (List.mem_cons_of_mem _ hx)
    unfold subtypeMatchesLoop at h
    split at h
    · rename_i hreply
      refine ih _ _ _ _ hgrest h ?_
      rcases hin with hin | ⟨f, hf, p, hp, htg, hname⟩
      · exact Or.inl hin
      · rcases List.mem_cons.mp hf with hf | hf
        · subst hf
          have hfn : f.Name = "chat" := by
            apply string_append_right_cancel (c := "_id")
            rw [hname]; rfl
          rw [hfn] at hreply
          exact absurd hreply (by decide)
        · exact Or.inr ⟨f, hf, p, hp, htg, hname⟩
    · cases hinner : subtypeMatchesOfField E d tgMethod g fromChat tgMethod.Fields repl
          fields with
      | error err => rw [hinner] at h; cases h
      | ok r =>
        obtain ⟨r', f'⟩ := r
        rw [hinner] at h
        simp only at h
        refine ih _ _ _ _ hgrest h ?_
        rcases hin with hin | ⟨f, hf, p, hp, htg, hname⟩
        · exact Or.inl (subtypeMatchesOfField_keeps E d tgMethod g fromChat _
            (fun mf p hp htg hname hkey =>
              subtypeMatches_write_value E d g fromChat
                (fun hb => hg hb g (List.mem_cons_self _ _)) mf p hp htg hname hkey)
            _ _ _ _ _ hinner hin)
        · rcases List.mem_cons.mp hf with hf | hf
          · subst hf
            exact Or.inl (subtypeMatchesOfField_binds E d tgMethod f fromChat p hp htg hname
              _ _ _ _ _ hinner (Or.inr hm))
          · exact Or.inr ⟨f, hf, p, hp, htg, hname⟩

/-! ## The key `from_chat_id` -/

/-- C7 fails as stated: for `forwardMessage` (fields `chat_id`, `from_chat_id`, `message_id`,
so the flag is set) and a type with a field `chat` followed by a field `from_chat`, both of
declared type `Chat`, the call succeeds and the final match set maps `from_chat_id` to
`from_chat.Id`, not to the identifier `chat.Id` of the field `chat`. -/
theorem getMethodFieldsSubtypeMatches_from_chat_rebinds :
    hasFromChat Sample.forwardMessage = true ∧
    getMethodFieldsSubtypeMatches Sample.externals Sample.schema Sample.forwardMessage
        Sample.transferType "forward" true []
      = .ok ("forward", [("from_chat_id", "from_chat.Id")]) ∧
    (⟨"chat", ["Chat"], true⟩ : Field) ∈ Sample.transferType.Fields ∧
    Sample.externals.getPreferredType Sample.schema ⟨"chat", ["Chat"], true⟩ = .ok "Chat" ∧
    Sample.externals.isTgType Sample.schema "Chat" = true ∧
    (⟨"chat", ["Chat"], true⟩ : Field).Name ++ "_id" = "chat_id" ∧
    (∃ mf ∈ Sample.forwardMessage.Fields, mf.Name = "chat_id") ∧
    MatchSet.get? [("from_chat_id", "from_chat.Id")] "from_chat_id"
      ≠ some ((⟨"chat", ["Chat"], true⟩ : Field).Name ++ ".Id") := by
  refine ⟨by decide, by decide, by decide, by decide, by decide, by decide, by decide,
    by decide⟩

/-- C7, as the code has it: let a call of `getMethodFieldsSubtypeMatches` succeed, let `f` be a
type field of declared type with `f.Name + "_id" = "chat_id"`, and let the method have a field
`chat_id`.  With the flag set, the entry of `chat_id` is what it was in the initial match set,
and `from_chat_id` is mapped to the identifier of `f` provided no field of the type named
`from_chat` is of declared type.  With the flag not set, `chat_id` is mapped to the identifier
of `f`, and `from_chat_id` is left as it was when the method has no field `from_chat_id` (which
is what the flag computed by `generateHelperDef` says). -/
theorem getMethodFieldsSubtypeMatches_chat_id (E : Externals) (d : APIDescription)
    (tgMethod : MethodDescription) (tgType : TypeDescription) (repl : String)
    (fromChat : Bool) (fields : MatchSet) (name : String) (out : MatchSet) (f : Field)
    (p : String)
    (hcall : getMethodFieldsSubtypeMatches E d tgMethod tgType repl fromChat fields
      = .ok (name, out))
    (hf : f ∈ tgType.Fields) (hp : E.getPreferredType d f = .ok p)
    (htg : E.isTgType d p = true) (hname : f.Name ++ "_id" = "chat_id")
    (hm : ∃ mf ∈ tgMethod.Fields, mf.Name = "chat_id") :
    (fromChat = true →
      MatchSet.get? out "chat_id" = MatchSet.get? fields "chat_id" ∧
      ((∀ g ∈ tgType.Fields, g.Name = "from_chat" →
          ∀ q, E.getPreferredType d g = .ok q → E.isTgType d q = false) →
        MatchSet.get? out "from_chat_id" = some (f.Name ++ ".Id"))) ∧
    (fromChat = false →
      MatchSet.get? out "chat_id" = some (f.Name ++ ".Id") ∧
      (hasFromChat tgMethod = false →
        MatchSet.get? out "from_chat_id" = MatchSet.get? fields "from_chat_id")) := by
  have hfn : f.Name = "chat" := by
    apply string_append_right_cancel (c := "_id")
    rw [hname]; rfl
  have hid : f.Name ++ ".Id" = "chat.Id" := by rw [hfn]; rfl
  unfold getMethodFieldsSubtypeMatches at hcall
  constructor
  · intro hb
    subst hb
    constructor
    · refine subtypeMatchesLoop_untouched E d tgMethod true "chat_id" ?_ _ _ _ _ _ hcall
      intro mf _
      by_cases hc : mf.Name = "chat_id"
      · simp [hc]
      · simp [hc]
    · intro hg
      rw [hid]
      exact subtypeMatchesLoop_binds E d tgMethod true hm _ _ _ _ _ (fun _ => hg) hcall
        (Or.inr ⟨f, hf, p, hp, htg, hname⟩)
  · intro hb
    subst hb
    constructor
    · rw [hid]
      exact subtypeMatchesLoop_binds E d tgMethod false hm _ _ _ _ _
        (fun h => by cases h) hcall (Or.inr ⟨f, hf, p, hp, htg, hname⟩)
    · intro hfc
      refine subtypeMatchesLoop_untouched E d tgMethod false "from_chat_id" ?_ _ _ _ _ _ hcall
      intro mf hmf
      simp only [Bool.false_eq_true, false_and, if_false]
      intro hc
      have : hasFromChat tgMethod = true := by
        unfold hasFromChat
        rw [List.any_eq_true]
        exact ⟨mf, hmf, by simp [hc]⟩
      rw [hfc] at this
      cases this

/-- A witness of `getMethodFieldsSubtypeMatches_chat_id`: `forwardMessage` on `Message` with
the flag set, and `sendMessage` on `Message` with the flag not set. -/
theorem getMethodFieldsSubtypeMatches_chat_id_witness :
    (MatchSet.get? [("message_id", "message_id"), ("from_chat_id", "chat.Id")] "chat_id"
        = MatchSet.get? [("message_id", "message_id")] "chat_id" ∧
      MatchSet.get? [("message_id", "message_id"), ("from_chat_id", "chat.Id")] "from_chat_id"
        = some ((⟨"chat", ["Chat"], true⟩ : Field).Name ++ ".Id")) ∧
    (MatchSet.get? [("chat_id", "chat.Id")] "chat_id"
        = some ((⟨"chat", ["Chat"], true⟩ : Field).Name ++ ".Id") ∧
      MatchSet.get? [("chat_id", "chat.Id")] "from_chat_id" = MatchSet.get? [] "from_chat_id") := by
  have hno : ∀ g ∈ Sample.messageType.Fields, g.Name = "from_chat" →
      ∀ q, Sample.externals.getPreferredType Sample.schema g = .ok q →
        Sample.externals.isTgType Sample.schema q = false := by
    intro g hg hn
    simp only [Sample.messageType, List.mem_cons, List.mem_singleton, List.not_mem_nil,
      or_false] at hg
    rcases hg with rfl | rfl | rfl | rfl | rfl <;> simp at hn
  have h1 := (getMethodFieldsSubtypeMatches_chat_id Sample.externals Sample.schema
    Sample.forwardMessage Sample.messageType "forward" true [("message_id", "message_id")]
    "forward" [("message_id", "message_id"), ("from_chat_id", "chat.Id")]
    ⟨"chat", ["Chat"], true⟩ "Chat" (by decide) (by decide) (by decide) (by decide)
    (by decide) (by decide)).1 rfl
  have h2 := (getMethodFieldsSubtypeMatches_chat_id Sample.externals Sample.schema
    Sample.sendMessage Sample.messageType "send" false []
    "send" [("chat_id", "chat.Id")]
    ⟨"chat", ["Chat"], true⟩ "Chat" (by decide) (by decide) (by decide) (by decide)
    (by decide) (by decide)).2 rfl
  exact ⟨⟨h1.1, h1.2 hno⟩, ⟨h2.1, h2.2 (by decide)⟩⟩

/-! ## The example `forwardMessage` on `Message` -/

/-- On the three fields of `forwardMessage` with the flag set, the inner loop of a type field
that matches no method field changes nothing. -/
theorem subtypeMatchesOfField_forward_other (E : Externals) (d : APIDescription)
    (tgMethod : MethodDescription) (g : Field) (q : String) (t1 t2 t3 : List String)
    (repl : String) (fields : MatchSet)
    (hq : E.getPreferredType d g = .ok q)
    (hno : E.isTgType d q = false ∨
      (g.Name ++ "_id" ≠ "chat_id" ∧ g.Name ++ "_id" ≠ "from_chat_id" ∧
        g.Name ++ "_id" ≠ "message_id")) :
    subtypeMatchesOfField E d tgMethod g true
      [⟨"chat_id", t1, true⟩, ⟨"from_chat_id", t2, true⟩, ⟨"message_id", t3, true⟩] repl fields
      = .ok (repl, fields) := by
  rcases hno with hno | ⟨h1, h2, h3⟩
  · simp [subtypeMatchesOfField, hq, hno]
  · simp [subtypeMatchesOfField, hq, h1, h2, h3]

/-- On the three fields of `forwardMessage` with the flag set, the inner loop of a field `chat`
of declared type `Chat` deletes `Chat` from the name and records `chat.Id` under
`from_chat_id`. -/
theorem subtypeMatchesOfField_forward_chat (E : Externals) (d : APIDescription)
    (tgMethod : MethodDescription) (g : Field) (t1 t2 t3 : List String)
    (repl : String) (fields : MatchSet)
    (hn : g.Name = "chat") (hq : E.getPreferredType d g = .ok "Chat")
    (htg : E.isTgType d "Chat" = true) :
    subtypeMatchesOfField E d tgMethod g true
      [⟨"chat_id", t1, true⟩, ⟨"from_chat_id", t2, true⟩, ⟨"message_id", t3, true⟩] repl fields
      = .ok (stringsReplaceAll repl "Chat", fields.set "from_chat_id" "chat.Id") := by
  simp [subtypeMatchesOfField, hq, htg, hn]

/-- Once `from_chat_id` is bound to `chat.Id`, the outer loop on the fields of `forwardMessage`
leaves the name `forward` and the match set as they are, when every type field either is a
field `chat` of type `Chat` or matches no method field. -/
theorem subtypeMatchesLoop_forward_bound (E : Externals) (d : APIDescription)
    (tgMethod : MethodDescription) (t1 t2 t3 : List String)
    (hfields : tgMethod.Fields
      = [⟨"chat_id", t1, true⟩, ⟨"from_chat_id", t2, true⟩, ⟨"message_id", t3, true⟩])
    (htg : E.isTgType d "Chat" = true) :
    ∀ gs : List Field,
      (∀ g ∈ gs, g.Name ≠ "reply_to_message" →
        ∃ q, E.getPreferredType d g = .ok q ∧
          ((g.Name = "chat" ∧ q = "Chat") ∨ E.isTgType d q = false ∨
            (g.Name ++ "_id" ≠ "chat_id" ∧ g.Name ++ "_id" ≠ "from_chat_id" ∧
              g.Name ++ "_id" ≠ "message_id"))) →
      subtypeMatchesLoop E d tgMethod true gs "forward"
          [("message_id", "message_id"), ("from_chat_id", "chat.Id")]
        = .ok ("forward", [("message_id", "message_id"), ("from_chat_id", "chat.Id")]) := by
  intro gs
  induction gs with
  | nil => intro _; rfl
  | cons g rest ih =>
    intro hgs
    have hrest := ih (fun x hx => hgs x (List.mem_cons_of_mem _ hx))
    unfold subtypeMatchesLoop
    by_cases hr : g.Name = "reply_to_message"
    · rw [if_pos hr]; exact hrest
    · rw [if_neg hr, hfields]
      obtain ⟨q, hq, hcase⟩ := hgs g (List.mem_cons_self _ _) hr
      rcases hcase with ⟨hn, hqc⟩ | hother
      · subst hqc
        rw [subtypeMatchesOfField_forward_chat E d tgMethod g t1 t2 t3 _ _ hn hq htg]
        exact hrest
      · rw [subtypeMatchesOfField_forward_other E d tgMethod g q t1 t2 t3 _ _ hq hother]
        exact hrest

/-- From the direct match set of `forwardMessage` on `Message`, the outer loop ends with the
name `forward` and with `from_chat_id` bound to `chat.Id`, when the type has a field `chat` of
type `Chat` and every other type field matches no method field. -/
theorem subtypeMatchesLoop_forward (E : Externals) (d : APIDescription)
    (tgMethod : MethodDescription) (t1 t2 t3 : List String)
    (hfields : tgMethod.Fields
      = [⟨"chat_id", t1, true⟩, ⟨"from_chat_id", t2, true⟩, ⟨"message_id", t3, true⟩])
    (htg : E.isTgType d "Chat" = true) :
    ∀ gs : List Field,
      (∀ g ∈ gs, g.Name ≠ "reply_to_message" →
        ∃ q, E.getPreferredType d g = .ok q ∧
          ((g.Name = "chat" ∧ q = "Chat") ∨ E.isTgType d q = false ∨
            (g.Name ++ "_id" ≠ "chat_id" ∧ g.Name ++ "_id" ≠ "from_chat_id" ∧
              g.Name ++ "_id" ≠ "message_id"))) →
      (∃ c ∈ gs, c.Name = "chat" ∧ E.getPreferredType d c = .ok "Chat") →
      subtypeMatchesLoop E d tgMethod true gs "forward" [("message_id", "message_id")]
        = .ok ("forward", [("message_id", "message_id"), ("from_chat_id", "chat.Id")]) := by
  intro gs
  induction gs with
  | nil => rintro _ ⟨c, hc, _⟩; cases hc
  | cons g rest ih =>
    intro hgs hchat
    have hgsrest := fun x hx => hgs x (List.mem_cons_of_mem _ hx)
    unfold subtypeMatchesLoop
    by_cases hr : g.Name = "reply_to_message"
    · rw [if_pos hr]
      refine ih hgsrest ?_
      obtain ⟨c, hc, hcn, hcq⟩ := hchat
      rcases List.mem_cons.mp hc with hc | hc
      · subst hc; rw [hcn] at hr; exact absurd hr (by decide)
      · exact ⟨c, hc, hcn, hcq⟩
    · rw [if_neg hr, hfields]
      obtain ⟨q, hq, hcase⟩ := hgs g (List.mem_cons_self _ _) hr
      rcases hcase with ⟨hn, hqc⟩ | hother
      · subst hqc
        rw [subtypeMatchesOfField_forward_chat E d tgMethod g t1 t2 t3 _ _ hn hq htg]
        exact subtypeMatchesLoop_forward_bound E d tgMethod t1 t2 t3 hfields htg rest hgsrest
      · rw [subtypeMatchesOfField_forward_other E d tgMethod g q t1 t2 t3 _ _ hq hother]
        refine ih hgsrest ?_
        obtain ⟨c, hc, hcn, hcq⟩ := hchat
        rcases List.mem_cons.mp hc with hc | hc
        · subst hc
          rw [hq] at hcq
          have hqc : q = "Chat" := Except.ok.inj hcq
          subst hqc
          rcases hother with h | ⟨h, _, _⟩
          · rw [htg] at h; cases h
          · rw [hcn] at h; exact absurd rfl h
        · exact ⟨c, hc, hcn, hcq⟩

/-- C8 fails as stated: a type `Message` with a field `chat` of declared type `Chat` may also
have a field `from_chat` of declared type `Chat`.  Then, for `forwardMessage`, subtype matching
ends with `from_chat_id` bound to `from_chat.Id`, not to `chat.Id`, and the helper passes
`m.FromChat.Id`. -/
theorem forwardMessage_on_Message_with_from_chat :
    Sample.forwardMessage.Fields.map (fun mf => (mf.Name, mf.Required))
      = [("chat_id", true), ("from_chat_id", true), ("message_id", true)] ∧
    Sample.fromChatSchema.typeAt "Message" = Sample.messageWithFromChat ∧
    (⟨"chat", ["Chat"], true⟩ : Field) ∈ Sample.messageWithFromChat.Fields ∧
    Sample.externals.getPreferredType Sample.fromChatSchema ⟨"chat", ["Chat"], true⟩
      = .ok "Chat" ∧
    Sample.externals.isTgType Sample.fromChatSchema "Chat" = true ∧
    hasFromChat Sample.forwardMessage = true ∧
    getMethodFieldsSubtypeMatches Sample.externals Sample.fromChatSchema Sample.forwardMessage
        Sample.messageWithFromChat (stringsReplaceFirst Sample.forwardMessage.Name "Message")
        (hasFromChat Sample.forwardMessage)
        (getMethodFieldsTypeMatches Sample.externals Sample.forwardMessage "Message")
      = .ok ("forward", [("message_id", "message_id"), ("from_chat_id", "from_chat.Id")]) ∧
    MatchSet.get? [("message_id", "message_id"), ("from_chat_id", "from_chat.Id")]
      "from_chat_id" ≠ some "chat.Id" ∧
    generateHelperForType Sample.externals Sample.fromChatSchema Sample.forwardMessage
        (hasFromChat Sample.forwardMessage) "Message"
      = .ok (some "\n// Forward Helper method for Bot.ForwardMessage\nfunc (m Message) Forward(b *Bot, chatId int64, opts *ForwardMessageOpts) (Message, error) \x7b\n\treturn b.ForwardMessage(chatId, m.FromChat.Id, m.MessageId, opts)\n\x7d\n") := by
  refine ⟨by decide, by decide, by decide, by decide, by decide, by decide, by decide,
    by decide, by rfl⟩

/-- C8, as the code has it: for a method `forwardMessage` with the required fields `chat_id`,
`from_chat_id`, `message_id` and a type `Message` with a field `chat` of declared type `Chat`,
provided every other field of the type (fields named `reply_to_message` apart) resolves and
either is not of declared type or has a name that, followed by `_id`, is none of `chat_id`,
`from_chat_id`, `message_id`: the flag `hasFromChat` is set; the direct match set is
`message_id -> message_id`; subtype matching succeeds with the candidate name `forward` and the
final match set `message_id -> message_id, from_chat_id -> chat.Id`, in which `chat_id` is not
a key; `chat_id` is the only field parameter of the signature; and the pair is not skipped: the
helper is emitted under the exported form of `forward`. -/
theorem forwardMessage_on_Message (E : Externals) (d : APIDescription)
    (m : MethodDescription) (T : TypeDescription) (t1 t2 t3 : List String)
    (p1 p2 p3 : String) (ret : List String)
    (hname : m.Name = "forwardMessage")
    (hfields : m.Fields
      = [⟨"chat_id", t1, true⟩, ⟨"from_chat_id", t2, true⟩, ⟨"message_id", t3, true⟩])
    (htype : d.typeAt "Message" = T)
    (hmsg : E.tgTypeMessage = "Message") (hfile : E.tgTypeFile ≠ "Message")
    (hsnake : E.titleToSnake "Message" = "message")
    (htg : E.isTgType d "Chat" = true)
    (hgs : ∀ g ∈ T.Fields, g.Name ≠ "reply_to_message" →
      ∃ q, E.getPreferredType d g = .ok q ∧
        ((g.Name = "chat" ∧ q = "Chat") ∨ E.isTgType d q = false ∨
          (g.Name ++ "_id" ≠ "chat_id" ∧ g.Name ++ "_id" ≠ "from_chat_id" ∧
            g.Name ++ "_id" ≠ "message_id")))
    (hchat : ∃ c ∈ T.Fields, c.Name = "chat" ∧ E.getPreferredType d c = .ok "Chat")
    (h1 : E.getPreferredType d ⟨"chat_id", t1, true⟩ = .ok p1)
    (h2 : E.getPreferredType d ⟨"from_chat_id", t2, true⟩ = .ok p2)
    (h3 : E.getPreferredType d ⟨"message_id", t3, true⟩ = .ok p3)
    (hret : E.GetReturnTypes d m = .ok ret) :
    hasFromChat m = true ∧
    getMethodFieldsTypeMatches E m "Message" = [("message_id", "message_id")] ∧
    getMethodFieldsSubtypeMatches E d m T (stringsReplaceFirst m.Name "Message")
        (hasFromChat m) (getMethodFieldsTypeMatches E m "Message")
      = .ok ("forward", [("message_id", "message_id"), ("from_chat_id", "chat.Id")]) ∧
    MatchSet.get? [("message_id", "message_id"), ("from_chat_id", "chat.Id")] "chat_id"
      = none ∧
    generateHelperArguments E d m (E.receiverName T)
        [("message_id", "message_id"), ("from_chat_id", "chat.Id")]
      = .ok ([E.snakeToCamel "chat_id", E.receiverName T ++ "." ++ E.snakeToTitle "chat.Id",
            E.receiverName T ++ "." ++ E.snakeToTitle "message_id", "opts"],
          ["b *Bot", E.snakeToCamel "chat_id" ++ " " ++ p1, "opts *" ++ E.optsName m], "") ∧
    generateHelperForType E d m (hasFromChat m) "Message"
      = .ok (some ("\n// " ++ E.stringsTitle "forward" ++ " Helper method for Bot."
          ++ E.stringsTitle m.Name
          ++ helperFuncTmpl
            { Receiver := E.receiverName T
              TypeName := "Message"
              HelperName := E.stringsTitle "forward"
              ReturnType := stringsJoin ret ", "
              FuncDefArgs := stringsJoin
                ["b *Bot", E.snakeToCamel "chat_id" ++ " " ++ p1, "opts *" ++ E.optsName m] ", "
              Contents := ""
              OptsName := E.optsName m
              MethodName := E.stringsTitle m.Name
              FuncCallArgs := stringsJoin
                [E.snakeToCamel "chat_id", E.receiverName T ++ "." ++ E.snakeToTitle "chat.Id",
                  E.receiverName T ++ "." ++ E.snakeToTitle "message_id", "opts"] ", " })) := by
  have hflag : hasFromChat m = true := by simp [hasFromChat, hfields]
  have hdirect : getMethodFieldsTypeMatches E m "Message" = [("message_id", "message_id")] := by
    simp [getMethodFieldsTypeMatches, hfields, hsnake, idFieldOf, hmsg, MatchSet.set]
  have hrepl : stringsReplaceFirst m.Name "Message" = "forward" := by rw [hname]; decide
  have hsub : getMethodFieldsSubtypeMatches E d m T (stringsReplaceFirst m.Name "Message")
      (hasFromChat m) (getMethodFieldsTypeMatches E m "Message")
      = .ok ("forward", [("message_id", "message_id"), ("from_chat_id", "chat.Id")]) := by
    rw [hflag, hdirect, hrepl]
    exact subtypeMatchesLoop_forward E d m t1 t2 t3 hfields htg T.Fields hgs hchat
  have hargs : generateHelperArguments E d m (E.receiverName T)
      [("message_id", "message_id"), ("from_chat_id", "chat.Id")]
      = .ok ([E.snakeToCamel "chat_id", E.receiverName T ++ "." ++ E.snakeToTitle "chat.Id",
            E.receiverName T ++ "." ++ E.snakeToTitle "message_id", "opts"],
          ["b *Bot", E.snakeToCamel "chat_id" ++ " " ++ p1, "opts *" ++ E.optsName m], "") := by
    simp [generateHelperArguments, generateHelperArgumentsLoop, hfields, h1, h2, h3,
      MatchSet.get?]
  refine ⟨hflag, hdirect, hsub, by decide, hargs, ?_⟩
  unfold generateHelperForType
  have hne : stringsReplaceFirst m.Name "Message" ≠ m.Name := by
    rw [hrepl, hname]; decide
  rw [if_neg (Ne.symm hfile)]
  simp only [htype, if_neg hne]
  rw [hsub]
  simp [hdirect, hret, hargs]

/-- A witness of `forwardMessage_on_Message`: the sample schema, where the helper is named
`Forward` and takes `chatId` as its only field parameter. -/
theorem forwardMessage_on_Message_witness :
    generateHelperForType Sample.externals Sample.schema Sample.forwardMessage
        (hasFromChat Sample.forwardMessage) "Message"
      = .ok (some ("\n// Forward Helper method for Bot.ForwardMessage\nfunc (m Message) Forward(b *Bot, chatId int64, opts *ForwardMessageOpts) (Message, error) \x7b\n\treturn b.ForwardMessage(chatId, m.Chat.Id, m.MessageId, opts)\n\x7d\n")) := by
  have hgs : ∀ g ∈ Sample.messageType.Fields, g.Name ≠ "reply_to_message" →
      ∃ q, Sample.externals.getPreferredType Sample.schema g = .ok q ∧
        ((g.Name = "chat" ∧ q = "Chat") ∨ Sample.externals.isTgType Sample.schema q = false ∨
          (g.Name ++ "_id" ≠ "chat_id" ∧ g.Name ++ "_id" ≠ "from_chat_id" ∧
            g.Name ++ "_id" ≠ "message_id")) := by
    intro g hg hr
    simp only [Sample.messageType, List.mem_cons, List.mem_singleton, List.not_mem_nil,
      or_false] at hg
    rcases hg with rfl | rfl | rfl | rfl | rfl
    · exact ⟨"int64", by decide, Or.inr (Or.inl (by decide))⟩
    · exact ⟨"User", by decide, Or.inr (Or.inr (by decide))⟩
    · exact ⟨"Chat", by decide, Or.inl (by decide)⟩
    · exact absurd rfl hr
    · exact ⟨"string", by decide, Or.inr (Or.inl (by decide))⟩
  have h := (forwardMessage_on_Message Sample.externals Sample.schema Sample.forwardMessage
    Sample.messageType ["Integer"] ["Integer"] ["Integer"] "int64" "int64" "int64" ["Message"]
    rfl rfl (by decide) rfl (by decide) (by decide) (by decide) hgs
    ⟨⟨"chat", ["Chat"], true⟩, by decide, by decide, by decide⟩
    (by decide) (by decide) (by decide) (by decide)).2.2.2.2.2
  rw [h]
  rfl

/-! ## `generateHelpers`: all or nothing -/

/-- When the loop of `generateHelpers` succeeds, `generateHelperDef` has succeeded for every
method it visited. -/
theorem generateHelpersLoop_ok_all (E : Externals) (d : APIDescription) :
    ∀ (names : List String) (helpers text : String),
      generateHelpersLoop E d names helpers = .ok text →
      ∀ name ∈ names, ∃ helper, generateHelperDef E d (d.methodAt name) = .ok helper := by
  intro names
  induction names with
  | nil => intro _ _ _ name hn; cases hn
  | cons n rest ih =>
    intro helpers text h name hn
    unfold generateHelpersLoop at h
    cases hdef : generateHelperDef E d (d.methodAt n) with
    | error err => rw [hdef] at h; cases h
    | ok helper =>
      rw [hdef] at h
      simp only at h
      rcases List.mem_cons.mp hn with hn | hn
      · subst hn; exact ⟨helper, hdef⟩
      · split at h
        · exact ih _ _ h name hn
        · exact ih _ _ h name hn

/-- When `generateHelperDef` fails for some method of the list, the loop of `generateHelpers`
fails at the first such method, with that method's error wrapped under its name. -/
theorem generateHelpersLoop_error (E : Externals) (d : APIDescription) :
    ∀ (names : List String) (helpers : String),
      (∃ name ∈ names, ∃ err, generateHelperDef E d (d.methodAt name) = .error err) →
      ∃ pre first post err,
        names = pre ++ first :: post ∧
        (∀ name ∈ pre, ∃ helper, generateHelperDef E d (d.methodAt name) = .ok helper) ∧
        generateHelperDef E d (d.methodAt first) = .error err ∧
        generateHelpersLoop E d names helpers =
          .error ("failed to generate helpers for " ++ first ++ ": " ++ err) := by
  intro names
  induction names with
  | nil => rintro _ ⟨name, hn, _⟩; cases hn
  | cons n rest ih =>
    intro helpers hex
    cases hdef : generateHelperDef E d (d.methodAt n) with
    | error err =>
      refine ⟨[], n, rest, err, rfl, ?_, hdef, ?_⟩
      · intro name hn; cases hn
      · unfold generateHelpersLoop; rw [hdef]
    | ok helper =>
      have hrest : ∃ name ∈ rest, ∃ err,
          generateHelperDef E d (d.methodAt name) = .error err := by
        obtain ⟨name, hn, err, herr⟩ := hex
        rcases List.mem_cons.mp hn with hn | hn
        · subst hn; rw [hdef] at herr; cases herr
        · exact ⟨name, hn, err, herr⟩
      by_cases hempty : helper = ""
      · obtain ⟨pre, first, post, err, hsplit, hpre, hfirst, hloop⟩ := ih helpers hrest
        refine ⟨n :: pre, first, post, err, by rw [hsplit]; rfl, ?_, hfirst, ?_⟩
        · intro name hn
          rcases List.mem_cons.mp hn with hn | hn
          · subst hn; exact ⟨helper, hdef⟩
          · exact hpre name hn
        · unfold generateHelpersLoop; rw [hdef]; simp only [if_pos hempty]; exact hloop
      · obtain ⟨pre, first, post, err, hsplit, hpre, hfirst, hloop⟩ :=
          ih (helpers ++ helper) hrest
        refine ⟨n :: pre, first, post, err, by rw [hsplit]; rfl, ?_, hfirst, ?_⟩
        · intro name hn
          rcases List.mem_cons.mp hn with hn | hn
          · subst hn; exact ⟨helper, hdef⟩
          · exact hpre name hn
        · unfold generateHelpersLoop; rw [hdef]; simp only [if_neg hempty]; exact hloop

/-- C9: `generateHelpers` publishes all or nothing.  If `generateHelperDef` fails for any
method of `orderedMethods(d)`, then `writeGenToFile` is not called and the error returned is
the error of the first failing method, wrapped under that method's name; `writeGenToFile` is
called at most once in a run; and when it is called, `generateHelperDef` has succeeded for
every method. -/
theorem generateHelpers_all_or_nothing (E : Externals) (d : APIDescription) :
    ((∃ name ∈ E.orderedMethods d, ∃ err,
        generateHelperDef E d (d.methodAt name) = .error err) →
      (generateHelpers E d).writes = [] ∧
      ∃ pre first post err,
        E.orderedMethods d = pre ++ first :: post ∧
        (∀ name ∈ pre, ∃ helper, generateHelperDef E d (d.methodAt name) = .ok helper) ∧
        generateHelperDef E d (d.methodAt first) = .error err ∧
        (generateHelpers E d).err
          = some ("failed to generate helpers for " ++ first ++ ": " ++ err)) ∧
    (generateHelpers E d).writes.length ≤ 1 ∧
    ((generateHelpers E d).writes ≠ [] →
      ∀ name ∈ E.orderedMethods d,
        ∃ helper, generateHelperDef E d (d.methodAt name) = .ok helper) := by
  refine ⟨?_, ?_, ?_⟩
  · intro hex
    obtain ⟨pre, first, post, err, hsplit, hpre, hfirst, hloop⟩ :=
      generateHelpersLoop_error E d (E.orderedMethods d) helpersHeader hex
    unfold generateHelpers
    rw [hloop]
    exact ⟨rfl, pre, first, post, err, hsplit, hpre, hfirst, rfl⟩
  · unfold generateHelpers
    cases generateHelpersLoop E d (E.orderedMethods d) helpersHeader with
    | error err => simp
    | ok text => simp
  · intro hw
    cases hloop : generateHelpersLoop E d (E.orderedMethods d) helpersHeader with
    | error err =>
      unfold generateHelpers at hw
      rw [hloop] at hw
      exact absurd rfl hw
    | ok text => exact generateHelpersLoop_ok_all E d _ _ _ hloop

/-- A witness of `generateHelpers_all_or_nothing`: in the sample schema where `forwardMessage`
generates a helper and the later method `setChatPhoto` fails, nothing is written. -/
theorem generateHelpers_all_or_nothing_witness :
    (∃ text, generateHelperDef Sample.externals Sample.failingSchema
      (Sample.failingSchema.methodAt "forwardMessage") = .ok text ∧ text ≠ "") ∧
    (generateHelpers Sample.externals Sample.failingSchema).writes = [] :=
  ⟨⟨_, by rfl, by decide⟩,
    ((generateHelpers_all_or_nothing Sample.externals Sample.failingSchema).1
      ⟨"setChatPhoto", by decide, _, by rfl⟩).1⟩

/-! ## The field named in a resolution error -/

/-- When the preferred type of the TYPE field `f` does not resolve, the inner loop of
`getMethodFieldsSubtypeMatches` fails at the first method field `mf` it visits, and the
message names `mf`, not `f`. -/
theorem subtypeMatchesOfField_error (E : Externals) (d : APIDescription)
    (tgMethod : MethodDescription) (f mf : Field) (fromChat : Bool) (rest : List Field)
    (repl : String) (fields : MatchSet) (err : String)
    (h : E.getPreferredType d f = .error err) :
    subtypeMatchesOfField E d tgMethod f fromChat (mf :: rest) repl fields =
      .error ("failed to get preferred type for field " ++ mf.Name ++ " of " ++ tgMethod.Name
        ++ ": " ++ err) := by
  simp [subtypeMatchesOfField, h]

/-- C10 at a failing input: the type `Message` has a field `sender_chat` whose preferred type
does not resolve, and every field of the method `deleteMessage` (`chat_id`, `message_id`)
resolves.  The error surfaced by `generateHelpers` names the method `deleteMessage` and the
method field `chat_id`; it does not contain `sender_chat`, the name of the field whose
preferred type failed to resolve. -/
theorem generateHelpers_error_names_other_field :
    Sample.externals.getPreferredType Sample.brokenSchema ⟨"sender_chat", [], false⟩
      = .error "unable to choose a preferred type" ∧
    Sample.externals.getPreferredType Sample.brokenSchema ⟨"chat_id", ["Integer"], true⟩
      = .ok "int64" ∧
    Sample.externals.getPreferredType Sample.brokenSchema ⟨"message_id", ["Integer"], true⟩
      = .ok "int64" ∧
    generateHelpers Sample.externals Sample.brokenSchema =
      { err := some "failed to generate helpers for deleteMessage: failed to get preferred type for field chat_id of deleteMessage: unable to choose a preferred type"
        writes := [] } ∧
    stringsContains "failed to generate helpers for deleteMessage: failed to get preferred type for field chat_id of deleteMessage: unable to choose a preferred type" "deleteMessage" ∧
    ¬ stringsContains "failed to generate helpers for deleteMessage: failed to get preferred type for field chat_id of deleteMessage: unable to choose a preferred type" "sender_chat" := by
  refine ⟨by decide, by decide, by decide, by rfl, by decide, by decide⟩

/-! ## The type `File` -/

/-- The loop of `generateHelperDef` gives the same result on a list of type names and on that
list without `tgTypeFile`. -/
theorem generateHelperDefLoop_without_file (E : Externals) (d : APIDescription)
    (tgMethod : MethodDescription) (fromChat : Bool) :
    ∀ (types : List String) (helperDef : String),
      generateHelperDefLoop E d tgMethod fromChat types helperDef =
        generateHelperDefLoop E d tgMethod fromChat
          (types.filter (fun typeName => decide (typeName ≠ E.tgTypeFile))) helperDef := by
  intro types
  induction types with
  | nil => intro helperDef; rfl
  | cons typeName rest ih =>
    intro helperDef
    by_cases hfile : typeName = E.tgTypeFile
    · have hstep : generateHelperForType E d tgMethod fromChat typeName = .ok none := by
        unfold generateHelperForType; rw [if_pos hfile]
      simp only [List.filter_cons, ne_eq, hfile, not_true_eq_false, decide_False,
        Bool.false_eq_true, if_false]
      rw [generateHelperDefLoop, ← hfile, hstep]
      simp only
      rw [ih helperDef]
      simp only [ne_eq, hfile]
    · simp only [List.filter_cons, ne_eq, hfile, not_false_eq_true, decide_True, if_true]
      rw [generateHelperDefLoop, generateHelperDefLoop]
      cases generateHelperForType E d tgMethod fromChat typeName with
      | error err => rfl
      | ok o =>
        cases o with
        | none => exact ih helperDef
        | some text => exact ih (helperDef ++ text)

/-- C14: `generateHelperDef` never emits a helper whose receiver type is the File type: the
loop body skips `tgTypeFile` for every schema and method, before the name check and the
direct-match check, and `generateHelperDef` returns what it returns when `tgTypeFile` is left
out of the type names. -/
theorem generateHelperDef_never_on_File (E : Externals) (d : APIDescription)
    (tgMethod : MethodDescription) (fromChat : Bool) :
    generateHelperForType E d tgMethod fromChat E.tgTypeFile = .ok none ∧
    generateHelperDef E d tgMethod =
      generateHelperDefLoop E d tgMethod (hasFromChat tgMethod)
        ((E.orderedTgTypes d).filter (fun typeName => decide (typeName ≠ E.tgTypeFile))) "" := by
  constructor
  · unfold generateHelperForType; rw [if_pos rfl]
  · exact generateHelperDefLoop_without_file E d tgMethod _ _ _

/-- An instance of the skip of `File`: `getFile` contains `File` and has the field `file_id`, so
the pair passes the name check and the direct-match check, and still no helper is emitted. -/
theorem getFile_on_File_skipped :
    stringsReplaceFirst Sample.getFile.Name "File" = "get" ∧
    getMethodFieldsTypeMatches Sample.externals Sample.getFile "File"
      = [("file_id", "file_id")] ∧
    generateHelperForType Sample.externals Sample.fileSchema Sample.getFile
      (hasFromChat Sample.getFile) "File" = .ok none ∧
    generateHelperDef Sample.externals Sample.fileSchema Sample.getFile = .ok "" := by
  refine ⟨by decide, by decide, by decide, by decide⟩

/-! ## The direct match set -/

/-- A text that ends in `_id` is not the text `id`. -/
theorem append_id_ne_id (s : String) : s ++ "_id" ≠ "id" := by
  intro h
  have hl := congrArg String.length h
  rw [String.length_append] at hl
  have h3 : ("_id" : String).length = 3 := by decide
  have h2 : ("id" : String).length = 2 := by decide
  omega

/-- The loop of `getMethodFieldsTypeMatches`, started on the empty map or on the map with the
single entry it writes, ends on that single entry when some field matches and leaves the map
as it is otherwise. -/
theorem directMatches_fold (key value : String) (typeKey : String) :
    ∀ (fs : List Field) (acc : MatchSet), (acc = [] ∨ acc = [(key, value)]) →
      fs.foldl
          (fun fields f =>
            if f.Name = typeKey ∨ f.Name = "id" then MatchSet.set fields key value else fields)
          acc
        = if (∃ f ∈ fs, f.Name = typeKey ∨ f.Name = "id") then [(key, value)] else acc := by
  intro fs
  induction fs with
  | nil => intro acc _; simp
  | cons f rest ih =>
    intro acc hacc
    rw [List.foldl_cons]
    by_cases hf : f.Name = typeKey ∨ f.Name = "id"
    · rw [if_pos hf]
      have hset : MatchSet.set acc key value = [(key, value)] := by
        rcases hacc with h | h <;> simp [h, MatchSet.set]
      rw [hset, ih _ (Or.inr rfl)]
      have hex : ∃ x ∈ f :: rest, x.Name = typeKey ∨ x.Name = "id" :=
        ⟨f, List.mem_cons_self _ _, hf⟩
      rw [if_pos hex]
      split <;> rfl
    · rw [if_neg hf, ih _ hacc]
      by_cases hrest : ∃ x ∈ rest, x.Name = typeKey ∨ x.Name = "id"
      · obtain ⟨x, hx, hxn⟩ := hrest
        rw [if_pos ⟨x, hx, hxn⟩, if_pos ⟨x, List.mem_cons_of_mem _ hx, hxn⟩]
      · rw [if_neg hrest, if_neg]
        rintro ⟨x, hx, hxn⟩
        rcases List.mem_cons.mp hx with hx | hx
        · subst hx; exact hf hxn
        · exact hrest ⟨x, hx, hxn⟩

/-- The direct match set in closed form. -/
theorem getMethodFieldsTypeMatches_eq (E : Externals) (tgMethod : MethodDescription)
    (typeName : String) :
    getMethodFieldsTypeMatches E tgMethod typeName =
      if (∃ f ∈ tgMethod.Fields, f.Name = E.titleToSnake typeName ++ "_id" ∨ f.Name = "id") then
        [(E.titleToSnake typeName ++ "_id", idFieldOf E typeName)]
      else [] := by
  unfold getMethodFieldsTypeMatches
  exact directMatches_fold _ _ _ tgMethod.Fields [] (Or.inl rfl)

/-- C18: the map returned by `getMethodFieldsTypeMatches` has at most one entry; the key of an
entry is `snake(type)_id`, which is never `id`; the map is non-empty if and only if the method
has a field named `snake(type)_id` or `id`; and the value of an entry is `message_id` when the
type is Message, `file_id` when the type is File, and `id` for every other type. -/
theorem getMethodFieldsTypeMatches_shape (E : Externals) (tgMethod : MethodDescription)
    (typeName : String) (hconst : E.tgTypeMessage ≠ E.tgTypeFile) :
    (getMethodFieldsTypeMatches E tgMethod typeName).length ≤ 1 ∧
    (∀ k v, (k, v) ∈ getMethodFieldsTypeMatches E tgMethod typeName →
      k = E.titleToSnake typeName ++ "_id" ∧ k ≠ "id" ∧
      (typeName = E.tgTypeMessage → v = "message_id") ∧
      (typeName = E.tgTypeFile → v = "file_id") ∧
      (typeName ≠ E.tgTypeMessage → typeName ≠ E.tgTypeFile → v = "id")) ∧
    (getMethodFieldsTypeMatches E tgMethod typeName ≠ [] ↔
      ∃ f ∈ tgMethod.Fields, f.Name = E.titleToSnake typeName ++ "_id" ∨ f.Name = "id") := by
  rw [getMethodFieldsTypeMatches_eq]
  by_cases hex : ∃ f ∈ tgMethod.Fields,
      f.Name = E.titleToSnake typeName ++ "_id" ∨ f.Name = "id"
  · rw [if_pos hex]
    refine ⟨by simp, ?_, by simp [hex]⟩
    intro k v hkv
    simp only [List.mem_singleton, Prod.mk.injEq] at hkv
    obtain ⟨hk, hv⟩ := hkv
    subst hk hv
    refine ⟨rfl, append_id_ne_id _, ?_, ?_, ?_⟩
    · intro h; simp [idFieldOf, h]
    · intro h
      have hne : typeName ≠ E.tgTypeMessage := by rw [h]; exact Ne.symm hconst
      simp [idFieldOf, h, hne]
      intro h'; exact absurd h'.symm hconst
    · intro h1 h2; simp [idFieldOf, h1, h2]
  · rw [if_neg hex]
    refine ⟨by simp, ?_, by simp [hex]⟩
    intro k v hkv
    cases hkv

/-- A witness of `getMethodFieldsTypeMatches_shape`: `getUser`, whose field is named `id`, on
the type `User`. -/
theorem getMethodFieldsTypeMatches_shape_witness :
    Sample.externals.tgTypeMessage ≠ Sample.externals.tgTypeFile ∧
    (getMethodFieldsTypeMatches Sample.externals Sample.getUser "User" ≠ [] ↔
      ∃ f ∈ Sample.getUser.Fields,
        f.Name = Sample.externals.titleToSnake "User" ++ "_id" ∨ f.Name = "id") :=
  ⟨by decide,
    (getMethodFieldsTypeMatches_shape Sample.externals Sample.getUser "User" (by decide)).2.2⟩

/-! ## The bindings added by subtype matching -/

/-- After the inner loop of a type field `f`, every key holds what it held before or the
identifier `f.Name.Id`, and no key is lost. -/
theorem subtypeMatchesOfField_bindings (E : Externals) (d : APIDescription)
    (tgMethod : MethodDescription) (f : Field) (fromChat : Bool) :
    ∀ (fs : List Field) (repl : String) (fields : MatchSet) (name : String) (out : MatchSet),
      subtypeMatchesOfField E d tgMethod f fromChat fs repl fields = .ok (name, out) →
      ∀ k, (MatchSet.get? out k = MatchSet.get? fields k ∨
          MatchSet.get? out k = some (f.Name ++ ".Id")) ∧
        (MatchSet.get? fields k ≠ none → MatchSet.get? out k ≠ none) := by
  intro fs
  induction fs with
  | nil =>
    intro repl fields name out h k
    simp only [subtypeMatchesOfField, Except.ok.injEq, Prod.mk.injEq] at h
    rw [h.2]
    exact ⟨Or.inl rfl, id⟩
  | cons mf rest ih =>
    intro repl fields name out h k
    unfold subtypeMatchesOfField at h
    cases hp : E.getPreferredType d f with
    | error err => rw [hp] at h; cases h
    | ok p =>
      rw [hp] at h
      simp only at h
      have step : ∀ key, subtypeMatchesOfField E d tgMethod f fromChat rest
          (stringsReplaceAll repl p) (MatchSet.set fields key (f.Name ++ ".Id"))
            = .ok (name, out) →
          (MatchSet.get? out k = MatchSet.get? fields k ∨
            MatchSet.get? out k = some (f.Name ++ ".Id")) ∧
          (MatchSet.get? fields k ≠ none → MatchSet.get? out k ≠ none) := by
        intro key h'
        obtain ⟨h1, h2⟩ := ih _ _ _ _ h' k
        rw [MatchSet.get?_set] at h1 h2
        by_cases hk : key = k
        · rw [if_pos hk] at h1 h2
          exact ⟨Or.inr (h1.elim id id), fun _ => h2 (by simp)⟩
        · rw [if_neg hk] at h1 h2
          exact ⟨h1, h2⟩
      split at h
      · split at h
        · exact step _ h
        · exact step _ h
      · exact ih _ _ _ _ h k

/-- After the outer loop, every key holds what it held before or the identifier `f.Name.Id`
of a type field `f`, and no key is lost. -/
theorem subtypeMatchesLoop_bindings (E : Externals) (d : APIDescription)
    (tgMethod : MethodDescription) (fromChat : Bool) :
    ∀ (gs : List Field) (repl : String) (fields : MatchSet) (name : String) (out : MatchSet),
      subtypeMatchesLoop E d tgMethod fromChat gs repl fields = .ok (name, out) →
      ∀ k, (MatchSet.get? out k = MatchSet.get? fields k ∨
          ∃ f ∈ gs, MatchSet.get? out k = some (f.Name ++ ".Id")) ∧
        (MatchSet.get? fields k ≠ none → MatchSet.get? out k ≠ none) := by
  intro gs
  induction gs with
  | nil =>
    intro repl fields name out h k
    simp only [subtypeMatchesLoop, Except.ok.injEq, Prod.mk.injEq] at h
    rw [h.2]
    exact ⟨Or.inl rfl, id⟩
  | cons g rest ih =>
    intro repl fields name out h k
    unfold subtypeMatchesLoop at h
    split at h
    · obtain ⟨h1, h2⟩ := ih _ _ _ _ h k
      refine ⟨?_, h2⟩
      rcases h1 with h1 | ⟨f, hf, h1⟩
      · exact Or.inl h1
      · exact Or.inr ⟨f, List.mem_cons_of_mem _ hf, h1⟩
    · cases hin : subtypeMatchesOfField E d tgMethod g fromChat tgMethod.Fields repl fields with
      | error err => rw [hin] at h; cases h
      | ok r =>
        obtain ⟨r', f'⟩ := r
        rw [hin] at h
        simp only at h
        obtain ⟨h1, h2⟩ := ih _ _ _ _ h k
        obtain ⟨g1, g2⟩ := subtypeMatchesOfField_bindings E d tgMethod g fromChat _ _ _ _ _ hin k
        refine ⟨?_, fun hk => h2 (g2 hk)⟩
        rcases h1 with h1 | ⟨f, hf, h1⟩
        · rcases g1 with g1 | g1
          · exact Or.inl (h1.trans g1)
          · exact Or.inr ⟨g, List.mem_cons_self _ _, h1.trans g1⟩
        · exact Or.inr ⟨f, List.mem_cons_of_mem _ hf, h1⟩

/-- A match set without entries holds nothing under any key, and conversely. -/
theorem MatchSet.eq_nil_iff (fields : MatchSet) :
    fields = [] ↔ ∀ k, MatchSet.get? fields k = none := by
  constructor
  · intro h k; rw [h]; rfl
  · intro h
    cases fields with
    | nil => rfl
    | cons kv rest =>
      obtain ⟨a, b⟩ := kv
      have := h a
      simp [MatchSet.get?] at this

/-- C19: when `getMethodFieldsSubtypeMatches` succeeds, every key of the final match set holds
either what it held in the initial match set or the value `f.Name.Id` of a field `f` of the
type, whatever the declared type of `f` is; no key of the initial match set is removed; and a
non-empty initial match set, such as the direct match set that `generateHelperDef` passes on,
gives a non-empty final match set. -/
theorem getMethodFieldsSubtypeMatches_bindings (E : Externals) (d : APIDescription)
    (tgMethod : MethodDescription) (tgType : TypeDescription) (repl : String)
    (fromChat : Bool) (fields : MatchSet) (name : String) (out : MatchSet)
    (h : getMethodFieldsSubtypeMatches E d tgMethod tgType repl fromChat fields
      = .ok (name, out)) :
    (∀ k, MatchSet.get? out k = MatchSet.get? fields k ∨
      ∃ f ∈ tgType.Fields, MatchSet.get? out k = some (f.Name ++ ".Id")) ∧
    (∀ k, MatchSet.get? fields k ≠ none → MatchSet.get? out k ≠ none) ∧
    (fields ≠ [] → out ≠ []) := by
  unfold getMethodFieldsSubtypeMatches at h
  have hb := subtypeMatchesLoop_bindings E d tgMethod fromChat _ _ _ _ _ h
  refine ⟨fun k => (hb k).1, fun k => (hb k).2, ?_⟩
  intro hne hout
  apply hne
  rw [MatchSet.eq_nil_iff] at hout ⊢
  intro k
  by_contra hk
  exact (hb k).2 hk (hout k)

/-- A witness of `getMethodFieldsSubtypeMatches_bindings`: for `deleteMessage` on a type with a
field `message` of declared type `Message`, the method field `message_id` is bound to
`message.Id`, although the identifier of a `Message` is `message_id`. -/
theorem getMethodFieldsSubtypeMatches_bindings_witness :
    getMethodFieldsSubtypeMatches Sample.externals Sample.schema Sample.deleteMessage
        Sample.callbackQueryType "delete" false [("callback_query_id", "id")]
      = .ok ("delete", [("callback_query_id", "id"), ("message_id", "message.Id")]) ∧
    ([("callback_query_id", "id")] ≠ ([] : MatchSet) →
      [("callback_query_id", "id"), ("message_id", "message.Id")] ≠ ([] : MatchSet)) :=
  ⟨by decide,
    (getMethodFieldsSubtypeMatches_bindings Sample.externals Sample.schema Sample.deleteMessage
      Sample.callbackQueryType "delete" false [("callback_query_id", "id")] "delete"
      [("callback_query_id", "id"), ("message_id", "message.Id")] (by decide)).2.2⟩

/-! ## Failure of `generateHelperArguments` -/

/-- The loop of `generateHelperArguments` fails at the first field whose preferred type does
not resolve, whatever it has accumulated, with the error of that field. -/
theorem generateHelperArgumentsLoop_error (E : Externals) (d : APIDescription)
    (tgMethod : MethodDescription) (receiverName : String) (fields : MatchSet)
    (mf : Field) (post : List Field) (err : String)
    (hmf : E.getPreferredType d mf = .error err) :
    ∀ (pre : List Field) (call defs : List String) (body : String),
      (∀ x ∈ pre, ∃ p, E.getPreferredType d x = .ok p) →
      generateHelperArgumentsLoop E d tgMethod receiverName fields (pre ++ mf :: post)
          call defs body =
        .error ("failed to get preferred type for field " ++ mf.Name ++ " of "
          ++ tgMethod.Name ++ ": " ++ err) := by
  intro pre
  induction pre with
  | nil =>
    intro call defs body _
    simp [generateHelperArgumentsLoop, hmf]
  | cons x rest ih =>
    intro call defs body h
    obtain ⟨p, hp⟩ := h x (List.mem_cons_self _ _)
    have hrest := fun y hy => h y (List.mem_cons_of_mem _ hy)
    rw [List.cons_append]
    unfold generateHelperArgumentsLoop
    rw [hp]
    simp only
    cases fields.get? x.Name with
    | some fName =>
      simp only
      split
      · exact ih _ _ _ hrest
      · exact ih _ _ _ hrest
    | none =>
      simp only
      split
      · exact ih _ _ _ hrest
      · exact ih _ _ _ hrest

/-- A list with an element whose preferred type does not resolve splits at the first such
element. -/
theorem first_unresolved_field (E : Externals) (d : APIDescription) :
    ∀ fs : List Field, (∃ mf ∈ fs, ∃ err, E.getPreferredType d mf = .error err) →
      ∃ pre mf post err, fs = pre ++ mf :: post ∧
        (∀ x ∈ pre, ∃ p, E.getPreferredType d x = .ok p) ∧
        E.getPreferredType d mf = .error err := by
  intro fs
  induction fs with
  | nil => rintro ⟨mf, hmf, _⟩; cases hmf
  | cons x rest ih =>
    intro hex
    cases hx : E.getPreferredType d x with
    | error err =>
      refine ⟨[], x, rest, err, rfl, ?_, hx⟩
      intro y hy
      cases hy
    | ok p =>
      have hrest : ∃ mf ∈ rest, ∃ err, E.getPreferredType d mf = .error err := by
        obtain ⟨mf, hmf, err, herr⟩ := hex
        rcases List.mem_cons.mp hmf with hmf | hmf
        · subst hmf; rw [hx] at herr; cases herr
        · exact ⟨mf, hmf, err, herr⟩
      obtain ⟨pre, mf, post, err, hsplit, hpre, hmf⟩ := ih hrest
      refine ⟨x :: pre, mf, post, err, by rw [hsplit]; rfl, ?_, hmf⟩
      intro y hy
      rcases List.mem_cons.mp hy with hy | hy
      · subst hy; exact ⟨p, hx⟩
      · exact hpre y hy

/-- C20: `generateHelperArguments` fails if and only if the preferred type of some method
field does not resolve, whether or not that field would appear in the helper; the error is the
one of the first such field in the method's order, under the message `failed to get preferred
type for field <field> of <method>`; a failure carries the error alone, without signature,
call list or body. -/
theorem generateHelperArguments_fails_iff (E : Externals) (d : APIDescription)
    (tgMethod : MethodDescription) (receiverName : String) (fields : MatchSet) :
    ((∃ err, generateHelperArguments E d tgMethod receiverName fields = .error err) ↔
      ∃ mf ∈ tgMethod.Fields, ∃ err, E.getPreferredType d mf = .error err) ∧
    (∀ pre mf post err, tgMethod.Fields = pre ++ mf :: post →
      (∀ x ∈ pre, ∃ p, E.getPreferredType d x = .ok p) →
      E.getPreferredType d mf = .error err →
      generateHelperArguments E d tgMethod receiverName fields =
        .error ("failed to get preferred type for field " ++ mf.Name ++ " of "
          ++ tgMethod.Name ++ ": " ++ err)) := by
  have hfirst : ∀ pre mf post err, tgMethod.Fields = pre ++ mf :: post →
      (∀ x ∈ pre, ∃ p, E.getPreferredType d x = .ok p) →
      E.getPreferredType d mf = .error err →
      generateHelperArguments E d tgMethod receiverName fields =
        .error ("failed to get preferred type for field " ++ mf.Name ++ " of "
          ++ tgMethod.Name ++ ": " ++ err) := by
    intro pre mf post err hsplit hpre hmf
    unfold generateHelperArguments
    rw [hsplit, generateHelperArgumentsLoop_error E d tgMethod receiverName fields mf post err
      hmf pre _ _ _ hpre]
  refine ⟨⟨?_, ?_⟩, hfirst⟩
  · rintro ⟨err, herr⟩
    by_contra hno
    have hall : ∀ mf ∈ tgMethod.Fields, E.getPreferredType d mf =
        .ok (match E.getPreferredType d mf with | .ok p => p | .error _ => "") := by
      intro mf hmf
      cases hp : E.getPreferredType d mf with
      | error e => exact absurd ⟨mf, hmf, e, hp⟩ hno
      | ok p => rfl
    rw [generateHelperArguments_ok E d tgMethod receiverName fields _ hall] at herr
    cases herr
  · intro hex
    obtain ⟨pre, mf, post, err, hsplit, hpre, hmf⟩ :=
      first_unresolved_field E d tgMethod.Fields hex
    exact ⟨_, hfirst pre mf post err hsplit hpre hmf⟩

/-- A witness of `generateHelperArguments_fails_iff`: in `sendChatAction` the only field that
does not resolve is the optional field `reply_markup`, which is not a key of the match set and
would not appear in the helper; `generateHelperArguments` fails with its error. -/
theorem generateHelperArguments_fails_iff_witness :
    MatchSet.get? [("chat_id", "id")] "reply_markup" = none ∧
    generateHelperArguments Sample.externals Sample.schema Sample.sendChatAction "c"
        [("chat_id", "id")] =
      .error ("failed to get preferred type for field "
        ++ (⟨"reply_markup", ["InlineKeyboardMarkup", "ForceReply"], false⟩ : Field).Name
        ++ " of " ++ Sample.sendChatAction.Name ++ ": "
        ++ "unable to choose a preferred type") :=
  ⟨by decide,
    (generateHelperArguments_fails_iff Sample.externals Sample.schema Sample.sendChatAction "c"
      [("chat_id", "id")]).2
      [⟨"chat_id", ["Integer"], true⟩, ⟨"action", ["String"], true⟩]
      ⟨"reply_markup", ["InlineKeyboardMarkup", "ForceReply"], false⟩ [] _ rfl
      (by
        intro x hx
        simp only [List.mem_cons, List.mem_singleton, List.not_mem_nil, or_false] at hx
        rcases hx with rfl | rfl
        · exact ⟨"int64", by decide⟩
        · exact ⟨"string", by decide⟩)
      (by decide)⟩

/-! ## The default-fill body -/

/-- A concatenation of two texts is empty only when both are. -/
theorem string_append_eq_empty {a b : String} : a ++ b = "" ↔ a = "" ∧ b = "" := by
  constructor
  · intro h
    have hd := congrArg String.data h
    simp only [String.data_append] at hd
    have hd' : a.data ++ b.data = [] := hd
    rw [List.append_eq_nil] at hd'
    exact ⟨String.ext hd'.1, String.ext hd'.2⟩
  · rintro ⟨ha, hb⟩
    rw [ha, hb]
    rfl

/-- A concatenation of texts is empty exactly when every text is. -/
theorem concatAll_eq_empty (parts : List String) :
    concatAll parts = "" ↔ ∀ s ∈ parts, s = "" := by
  induction parts with
  | nil => simp [concatAll]
  | cons a rest ih =>
    have hc : concatAll (a :: rest) = a ++ concatAll rest := rfl
    rw [hc, string_append_eq_empty, ih]
    simp

/-- A default-fill statement is never the empty text. -/
theorem optsStatement_ne_empty (E : Externals) (d : APIDescription) (receiverName : String)
    (mf : Field) (prefType fName : String) :
    optsStatement E d receiverName mf prefType fName ≠ "" := by
  intro h
  unfold optsStatement at h
  simp only [String.append_assoc] at h
  rw [string_append_eq_empty] at h
  exact absurd h.1 (by decide)

/-- The default-fill statement in the words of its two cases: the assigned expression is the
address of the receiver's accessor for a pointer type and the accessor itself otherwise. -/
theorem optsStatement_eq (E : Externals) (d : APIDescription) (receiverName : String)
    (mf : Field) (prefType fName : String) :
    optsStatement E d receiverName mf prefType fName =
      "\n\tif opts." ++ E.snakeToTitle mf.Name ++ " == " ++ E.getDefaultTypeVal d prefType
        ++ " \x7b" ++ "\n\t\topts." ++ E.snakeToTitle mf.Name ++ " = "
        ++ (if E.isPointer prefType = true then
              "&" ++ receiverName ++ "." ++ E.snakeToTitle fName
            else receiverName ++ "." ++ E.snakeToTitle fName)
        ++ "\n\t\x7d" := by
  unfold optsStatement
  cases E.isPointer prefType
  · simp only [Bool.false_eq_true, if_false, String.append_assoc]
  · simp only [if_true, String.append_assoc]
    rfl

/-- C15: when every method field's preferred type resolves, the default-fill body returned by
`generateHelperArguments` is the concatenation, in the method's order, of one guarded statement
`if opts.X == default { opts.X = expr }` per optional field that is a key of the match set,
where `expr` is `&receiver.Title(binding)` for a pointer type and `receiver.Title(binding)`
otherwise; the body is empty if and only if no optional field is a key of the match set; and
the call list and the signature have entries for required fields only. -/
theorem generateHelperArguments_fill_body (E : Externals) (d : APIDescription)
    (tgMethod : MethodDescription) (receiverName : String) (fields : MatchSet)
    (prefType : Field → String)
    (h : ∀ mf ∈ tgMethod.Fields, E.getPreferredType d mf = .ok (prefType mf)) :
    ∃ funcCallArgList funcDefArgList optsContent,
      generateHelperArguments E d tgMethod receiverName fields =
        .ok (funcCallArgList, funcDefArgList, optsContent) ∧
      optsContent = concatAll (tgMethod.Fields.filterMap (fun mf =>
        if mf.Required = true then none
        else (fields.get? mf.Name).map (fun fName =>
          "\n\tif opts." ++ E.snakeToTitle mf.Name ++ " == "
            ++ E.getDefaultTypeVal d (prefType mf) ++ " \x7b"
            ++ "\n\t\topts." ++ E.snakeToTitle mf.Name ++ " = "
            ++ (if E.isPointer (prefType mf) = true then
                  "&" ++ receiverName ++ "." ++ E.snakeToTitle fName
                else receiverName ++ "." ++ E.snakeToTitle fName)
            ++ "\n\t\x7d"))) ∧
      (optsContent = "" ↔
        ∀ mf ∈ tgMethod.Fields, mf.Required = false → fields.get? mf.Name = none) ∧
      funcCallArgList =
        (tgMethod.Fields.filter (fun mf => mf.Required)).map
          (callArgument E receiverName fields) ++ ["opts"] ∧
      funcDefArgList =
        ["b *Bot"]
          ++ (tgMethod.Fields.filter
                (fun mf => mf.Required && (fields.get? mf.Name).isNone)).map
              (fun mf => E.snakeToCamel mf.Name ++ " " ++ prefType mf)
          ++ ["opts *" ++ E.optsName tgMethod] := by
  refine ⟨_, _, _, generateHelperArguments_ok E d tgMethod receiverName fields prefType h,
    ?_, ?_, rfl, rfl⟩
  · unfold fillStatements
    congr 2
    funext mf
    split
    · rfl
    · cases fields.get? mf.Name with
      | none => rfl
      | some fName => simp only [Option.map_some', optsStatement_eq]
  · rw [concatAll_eq_empty]
    unfold fillStatements
    constructor
    · intro hall mf hmf hreq
      cases hg : fields.get? mf.Name with
      | none => rfl
      | some fName =>
        exfalso
        refine optsStatement_ne_empty E d receiverName mf (prefType mf) fName (hall _ ?_)
        rw [List.mem_filterMap]
        exact ⟨mf, hmf, by simp [hreq, hg]⟩
    · intro hall s hs
      rw [List.mem_filterMap] at hs
      obtain ⟨mf, hmf, hs⟩ := hs
      cases hreq : mf.Required with
      | true => simp [hreq] at hs
      | false => simp [hreq, hall mf hmf hreq] at hs

/-- A witness of `generateHelperArguments_fill_body`: `sendMessage` with the required field
`chat_id` and the optional field `reply_to_message_id` bound; the body is the single statement
for `reply_to_message_id`. -/
theorem generateHelperArguments_fill_body_witness :
    generateHelperArguments Sample.externals Sample.schema Sample.sendMessage "m"
        [("chat_id", "chat.Id"), ("reply_to_message_id", "message_id")] =
      .ok (["m.Chat.Id", "text", "opts"], ["b *Bot", "text string", "opts *SendMessageOpts"],
        "\n\tif opts.ReplyToMessageId == 0 \x7b\n\t\topts.ReplyToMessageId = m.MessageId\n\t\x7d") := by
  obtain ⟨call, defs, body, hok, hbody, _, hcall, hdefs⟩ :=
    generateHelperArguments_fill_body Sample.externals Sample.schema Sample.sendMessage "m"
      [("chat_id", "chat.Id"), ("reply_to_message_id", "message_id")]
      (fun mf => Sample.toGoType (mf.Types.headD "")) (by decide)
  rw [hok, hbody, hcall, hdefs]
  decide

/-! ## The rendered helper -/

/-- C17: the text rendered by the template is the declaration
`func (Receiver TypeName) HelperName(FuncDefArgs) (ReturnType, error) {`, then, exactly when
`Contents` is not empty, the allocation block `if opts == nil { opts = &OptsName{} }` followed
by `Contents`, and in both cases the single statement `return b.MethodName(FuncCallArgs)` and
the closing brace. -/
theorem helperFuncTmpl_shape (data : helperFuncData) :
    (data.Contents ≠ "" →
      helperFuncTmpl data =
        "\nfunc (" ++ data.Receiver ++ " " ++ data.TypeName ++ ") " ++ data.HelperName ++ "("
          ++ data.FuncDefArgs ++ ") (" ++ data.ReturnType ++ ", error) \x7b"
          ++ ("\n\t\tif opts == nil \x7b\n\t\t\topts = &" ++ data.OptsName
            ++ "\x7b\x7d\n\t\t\x7d\n\t\t" ++ data.Contents ++ "\n\n\t")
          ++ "\n\treturn b." ++ data.MethodName ++ "(" ++ data.FuncCallArgs ++ ")\n\x7d\n") ∧
    (data.Contents = "" →
      helperFuncTmpl data =
        "\nfunc (" ++ data.Receiver ++ " " ++ data.TypeName ++ ") " ++ data.HelperName ++ "("
          ++ data.FuncDefArgs ++ ") (" ++ data.ReturnType ++ ", error) \x7b"
          ++ "\n\treturn b." ++ data.MethodName ++ "(" ++ data.FuncCallArgs ++ ")\n\x7d\n") ∧
    (∃ before,
      helperFuncTmpl data =
        before ++ ("\n\treturn b." ++ data.MethodName ++ "(" ++ data.FuncCallArgs
          ++ ")\n\x7d\n")) := by
  refine ⟨?_, ?_, ?_⟩
  · intro h
    unfold helperFuncTmpl
    rw [if_neg h]
  · intro h
    unfold helperFuncTmpl
    rw [if_pos h]
    simp only [String.append_assoc]
    rfl
  · refine ⟨"\nfunc (" ++ data.Receiver ++ " " ++ data.TypeName ++ ") " ++ data.HelperName
      ++ "(" ++ data.FuncDefArgs ++ ") (" ++ data.ReturnType ++ ", error) \x7b"
      ++ (if data.Contents = "" then ""
          else "\n\t\tif opts == nil \x7b\n\t\t\topts = &" ++ data.OptsName
            ++ "\x7b\x7d\n\t\t\x7d\n\t\t" ++ data.Contents ++ "\n\n\t"), ?_⟩
    unfold helperFuncTmpl
    simp only [String.append_assoc]

/-- A witness of `helperFuncTmpl_shape`: one rendering with default-fill statements and one
without. -/
theorem helperFuncTmpl_shape_witness :
    helperFuncTmpl
        { Receiver := "m", TypeName := "Message", HelperName := "Reply",
          ReturnType := "*Message", FuncDefArgs := "b *Bot, text string, opts *SendMessageOpts",
          Contents := "\n\tif opts.ReplyToMessageId == 0 \x7b\n\t\topts.ReplyToMessageId = m.MessageId\n\t\x7d",
          OptsName := "SendMessageOpts", MethodName := "SendMessage",
          FuncCallArgs := "m.Chat.Id, text, opts" } =
      "\nfunc (m Message) Reply(b *Bot, text string, opts *SendMessageOpts) (*Message, error) \x7b\n\t\tif opts == nil \x7b\n\t\t\topts = &SendMessageOpts\x7b\x7d\n\t\t\x7d\n\t\t\n\tif opts.ReplyToMessageId == 0 \x7b\n\t\topts.ReplyToMessageId = m.MessageId\n\t\x7d\n\n\t\n\treturn b.SendMessage(m.Chat.Id, text, opts)\n\x7d\n" ∧
    helperFuncTmpl
        { Receiver := "m", TypeName := "Message", HelperName := "Forward",
          ReturnType := "Message", FuncDefArgs := "b *Bot, chatId int64, opts *ForwardMessageOpts",
          Contents := "", OptsName := "ForwardMessageOpts", MethodName := "ForwardMessage",
          FuncCallArgs := "chatId, m.Chat.Id, m.MessageId, opts" } =
      "\nfunc (m Message) Forward(b *Bot, chatId int64, opts *ForwardMessageOpts) (Message, error) \x7b\n\treturn b.ForwardMessage(chatId, m.Chat.Id, m.MessageId, opts)\n\x7d\n" := by
  constructor
  · rw [(helperFuncTmpl_shape _).1 (by decide)]
    decide
  · rw [(helperFuncTmpl_shape _).2.1 (by decide)]
    decide

/-! ## The name check and the helper name -/

/-- Deleting the first occurrence of a text that does not occur changes nothing. -/
theorem removeFirst_of_absent (old : List Char) :
    ∀ s : List Char, ¬ old <:+: s → removeFirst old s = s := by
  intro s
  induction s with
  | nil => intro _; rfl
  | cons c cs ih =>
    intro h
    have hpre : old.isPrefixOf (c :: cs) = false := by
      cases hp : old.isPrefixOf (c :: cs) with
      | false => rfl
      | true => exact absurd (List.isPrefixOf_iff_prefix.mp hp).isInfix h
    have htail : ¬ old <:+: cs := fun ht => h (ht.trans (List.suffix_cons c cs).isInfix)
    simp [removeFirst, hpre, ih htail]

/-- The text of an emitted helper: the comment line and one rendering of the template, for
the receiver type `typeName`, under the capitalised name that subtype matching returned. -/
theorem generateHelperForType_some (E : Externals) (d : APIDescription)
    (tgMethod : MethodDescription) (fromChat : Bool) (typeName text : String)
    (h : generateHelperForType E d tgMethod fromChat typeName = .ok (some text)) :
    ∃ name out ret funcCallArgList funcDefArgList optsContent,
      getMethodFieldsSubtypeMatches E d tgMethod (d.typeAt typeName)
          (stringsReplaceFirst tgMethod.Name typeName) fromChat
          (getMethodFieldsTypeMatches E tgMethod typeName) = .ok (name, out) ∧
      E.GetReturnTypes d tgMethod = .ok ret ∧
      generateHelperArguments E d tgMethod (E.receiverName (d.typeAt typeName)) out
        = .ok (funcCallArgList, funcDefArgList, optsContent) ∧
      text = "\n// " ++ E.stringsTitle name ++ " Helper method for Bot."
        ++ E.stringsTitle tgMethod.Name
        ++ helperFuncTmpl
          { Receiver := E.receiverName (d.typeAt typeName)
            TypeName := typeName
            HelperName := E.stringsTitle name
            ReturnType := stringsJoin ret ", "
            FuncDefArgs := stringsJoin funcDefArgList ", "
            Contents := optsContent
            OptsName := E.optsName tgMethod
            MethodName := E.stringsTitle tgMethod.Name
            FuncCallArgs := stringsJoin funcCallArgList ", " } := by
  unfold generateHelperForType at h
  split at h
  · cases h
  · simp only at h
    split at h
    · cases h
    · split at h
      · cases h
      · cases hsub : getMethodFieldsSubtypeMatches E d tgMethod (d.typeAt typeName)
            (stringsReplaceFirst tgMethod.Name typeName) fromChat
            (getMethodFieldsTypeMatches E tgMethod typeName) with
        | error err => rw [hsub] at h; cases h
        | ok r =>
          obtain ⟨name, out⟩ := r
          rw [hsub] at h
          simp only at h
          cases hret : E.GetReturnTypes d tgMethod with
          | error err => rw [hret] at h; cases h
          | ok ret =>
            rw [hret] at h
            simp only at h
            cases hargs : generateHelperArguments E d tgMethod
                (E.receiverName (d.typeAt typeName)) out with
            | error err => rw [hargs] at h; cases h
            | ok t =>
              obtain ⟨call, defs, body⟩ := t
              rw [hargs] at h
              simp only [Except.ok.injEq, Option.some.injEq] at h
              exact ⟨name, out, ret, call, defs, body, rfl, rfl, hargs, h.symm⟩

/-- Appending the empty text changes nothing. -/
theorem string_append_empty (a : String) : a ++ "" = a := by
  apply String.ext
  rw [String.data_append]
  exact List.append_nil _

/-- Prepending the empty text changes nothing. -/
theorem string_empty_append (a : String) : "" ++ a = a := by
  apply String.ext
  rw [String.data_append]
  rfl

/-- When the loop of `generateHelpers` succeeds, its text is the text it started from followed
by the results of `generateHelperDef` for the methods it visited, in order. -/
theorem generateHelpersLoop_ok_text (E : Externals) (d : APIDescription) :
    ∀ (names : List String) (helpers text : String),
      generateHelpersLoop E d names helpers = .ok text →
      text = helpers ++ concatAll (names.map (fun name =>
        match generateHelperDef E d (d.methodAt name) with
        | .ok helper => helper
        | .error _ => "")) := by
  intro names
  induction names with
  | nil =>
    intro helpers text h
    simp only [generateHelpersLoop, Except.ok.injEq] at h
    rw [← h]
    exact (string_append_empty _).symm
  | cons n rest ih =>
    intro helpers text h
    unfold generateHelpersLoop at h
    have hc : ∀ (a : String) (l : List String), concatAll (a :: l) = a ++ concatAll l :=
      fun _ _ => rfl
    cases hdef : generateHelperDef E d (d.methodAt n) with
    | error err => rw [hdef] at h; cases h
    | ok helper =>
      rw [hdef] at h
      simp only at h
      rw [List.map_cons, hc, hdef]
      simp only
      by_cases hempty : helper = ""
      · rw [if_pos hempty] at h
        rw [ih _ _ h, hempty, string_empty_append]
      · rw [if_neg hempty] at h
        rw [ih _ _ h, String.append_assoc]

/-- When the loop of `generateHelperDef` succeeds, its body has raised no error for any type
it visited. -/
theorem generateHelperDefLoop_ok_all (E : Externals) (d : APIDescription)
    (tgMethod : MethodDescription) (fromChat : Bool) :
    ∀ (types : List String) (helperDef text : String),
      generateHelperDefLoop E d tgMethod fromChat types helperDef = .ok text →
      ∀ typeName ∈ types, ∀ err,
        generateHelperForType E d tgMethod fromChat typeName ≠ .error err := by
  intro types
  induction types with
  | nil => intro _ _ _ typeName hT; cases hT
  | cons T rest ih =>
    intro helperDef text h typeName hT err
    unfold generateHelperDefLoop at h
    cases hstep : generateHelperForType E d tgMethod fromChat T with
    | error e => rw [hstep] at h; cases h
    | ok o =>
      rw [hstep] at h
      rcases List.mem_cons.mp hT with hT | hT
      · subst hT; rw [hstep]; intro hc; cases hc
      · cases o with
        | none => exact ih _ _ h typeName hT err
        | some t => exact ih _ _ h typeName hT err

/-- C12: when `generateHelpers` succeeds, it calls `writeGenToFile` once, on the file
`gen_helpers.go`, with the fixed header (`THIS FILE IS AUTOGENERATED. DO NOT EDIT.`, the
regeneration hint and the package clause) followed by the results of `generateHelperDef` for
the methods of `orderedMethods(d)`, in that order; the result of `generateHelperDef` for a
method is the concatenation, over the entries of `orderedTgTypes(d)` in that order, of at most
one text per entry; and such a text is one comment line and one rendering of the template for
that type. -/
theorem generateHelpers_artifact (E : Externals) (d : APIDescription)
    (hok : (generateHelpers E d).err = none) :
    (generateHelpers E d).writes =
      [("\n// THIS FILE IS AUTOGENERATED. DO NOT EDIT.\n// Regen by running 'go generate' in the repo root.\n\npackage gotgbot\n\n"
          ++ concatAll ((E.orderedMethods d).map (fun name =>
            match generateHelperDef E d (d.methodAt name) with
            | .ok helper => helper
            | .error _ => "")), "gen_helpers.go")] ∧
    (∀ name ∈ E.orderedMethods d,
      generateHelperDef E d (d.methodAt name) =
        .ok (concatAll ((E.orderedTgTypes d).filterMap (fun typeName =>
          match generateHelperForType E d (d.methodAt name)
              (hasFromChat (d.methodAt name)) typeName with
          | .ok (some text) => some text
          | _ => none)))) ∧
    (∀ name ∈ E.orderedMethods d, ∀ typeName text,
      generateHelperForType E d (d.methodAt name) (hasFromChat (d.methodAt name)) typeName
        = .ok (some text) →
      ∃ helperName data,
        data.TypeName = typeName ∧
        text = "\n// " ++ helperName ++ " Helper method for Bot."
          ++ E.stringsTitle (d.methodAt name).Name ++ helperFuncTmpl data) := by
  cases hloop : generateHelpersLoop E d (E.orderedMethods d) helpersHeader with
  | error err =>
    unfold generateHelpers at hok
    rw [hloop] at hok
    cases hok
  | ok text =>
    refine ⟨?_, ?_, ?_⟩
    · unfold generateHelpers
      rw [hloop]
      simp only
      rw [generateHelpersLoop_ok_text E d _ _ _ hloop]
      rfl
    · intro name hname
      obtain ⟨helper, hdef⟩ := generateHelpersLoop_ok_all E d _ _ _ hloop name hname
      have hall := generateHelperDefLoop_ok_all E d (d.methodAt name)
        (hasFromChat (d.methodAt name)) (E.orderedTgTypes d) "" helper hdef
      unfold generateHelperDef
      rw [generateHelperDefLoop_ok E d _ _ _ _ hall, string_empty_append]
    · intro name _ typeName text hstep
      obtain ⟨helperName, out, ret, call, defs, body, _, _, _, htext⟩ :=
        generateHelperForType_some E d _ _ typeName text hstep
      exact ⟨E.stringsTitle helperName, _, rfl, htext⟩

/-- A witness of `generateHelpers_artifact`: a schema stored as `User`, `Message`, `Chat` with
the methods stored as `pinChatMessage`, `deleteMessage`.  The artifact is the header, then the
helper of `deleteMessage` (on `Message`), then the two helpers of `pinChatMessage`, the one on
`Chat` before the one on `Message`. -/
theorem generateHelpers_artifact_witness :
    (generateHelpers Sample.externals Sample.pinSchema).err = none ∧
    Sample.externals.orderedMethods Sample.pinSchema = ["deleteMessage", "pinChatMessage"] ∧
    Sample.externals.orderedTgTypes Sample.pinSchema = ["Chat", "Message", "User"] ∧
    (generateHelpers Sample.externals Sample.pinSchema).writes =
      [("\n// THIS FILE IS AUTOGENERATED. DO NOT EDIT.\n// Regen by running 'go generate' in the repo root.\n\npackage gotgbot\n\n\n// Delete Helper method for Bot.DeleteMessage\nfunc (m Message) Delete(b *Bot, opts *DeleteMessageOpts) (bool, error) \x7b\n\treturn b.DeleteMessage(m.Chat.Id, m.MessageId, opts)\n\x7d\n\n// PinMessage Helper method for Bot.PinChatMessage\nfunc (c Chat) PinMessage(b *Bot, messageId int64, opts *PinChatMessageOpts) (bool, error) \x7b\n\treturn b.PinChatMessage(c.Id, messageId, opts)\n\x7d\n\n// Pin Helper method for Bot.PinChatMessage\nfunc (m Message) Pin(b *Bot, opts *PinChatMessageOpts) (bool, error) \x7b\n\treturn b.PinChatMessage(m.Chat.Id, m.MessageId, opts)\n\x7d\n",
        "gen_helpers.go")] := by
  refine ⟨by rfl, by decide, by decide, ?_⟩
  rw [(generateHelpers_artifact Sample.externals Sample.pinSchema (by rfl)).1]
  rfl

/-! ## What the generator depends on -/

/-- The inner loop of subtype matching depends on the external functions and the schema only
through their answers. -/
theorem subtypeMatchesOfField_congr (E₁ E₂ : Externals) (d₁ d₂ : APIDescription)
    (hs : SameAnswers E₁ d₁ E₂ d₂) (tgMethod : MethodDescription) (f : Field)
    (fromChat : Bool) :
    ∀ (fs : List Field) (repl : String) (fields : MatchSet),
      subtypeMatchesOfField E₁ d₁ tgMethod f fromChat fs repl fields =
        subtypeMatchesOfField E₂ d₂ tgMethod f fromChat fs repl fields := by
  intro fs
  induction fs with
  | nil => intro repl fields; rfl
  | cons mf rest ih =>
    intro repl fields
    unfold subtypeMatchesOfField
    rw [hs.getPreferredType, hs.isTgType]
    cases E₂.getPreferredType d₂ f with
    | error err => rfl
    | ok p => simp only [ih]

/-- The outer loop of subtype matching depends on the external functions and the schema only
through their answers. -/
theorem subtypeMatchesLoop_congr (E₁ E₂ : Externals) (d₁ d₂ : APIDescription)
    (hs : SameAnswers E₁ d₁ E₂ d₂) (tgMethod : MethodDescription) (fromChat : Bool) :
    ∀ (gs : List Field) (repl : String) (fields : MatchSet),
      subtypeMatchesLoop E₁ d₁ tgMethod fromChat gs repl fields =
        subtypeMatchesLoop E₂ d₂ tgMethod fromChat gs repl fields := by
  intro gs
  induction gs with
  | nil => intro repl fields; rfl
  | cons g rest ih =>
    intro repl fields
    unfold subtypeMatchesLoop
    rw [subtypeMatchesOfField_congr E₁ E₂ d₁ d₂ hs]
    simp only [ih]

/-- The loop of `generateHelperArguments` depends on the external functions and the schema only
through their answers. -/
theorem generateHelperArgumentsLoop_congr (E₁ E₂ : Externals) (d₁ d₂ : APIDescription)
    (hs : SameAnswers E₁ d₁ E₂ d₂) (tgMethod : MethodDescription) (receiverName : String)
    (fields : MatchSet) :
    ∀ (fs : List Field) (call defs : List String) (body : String),
      generateHelperArgumentsLoop E₁ d₁ tgMethod receiverName fields fs call defs body =
        generateHelperArgumentsLoop E₂ d₂ tgMethod receiverName fields fs call defs body := by
  intro fs
  induction fs with
  | nil => intro call defs body; rfl
  | cons mf rest ih =>
    intro call defs body
    unfold generateHelperArgumentsLoop
    unfold optsStatement
    rw [hs.getPreferredType, hs.snakeToTitle, hs.snakeToCamel, hs.getDefaultTypeVal,
      hs.isPointer]
    simp only [ih]

/-- The function `generateHelperDef` depends on the external functions and the schema only
through their answers. -/
theorem generateHelperDef_congr (E₁ E₂ : Externals) (d₁ d₂ : APIDescription)
    (hs : SameAnswers E₁ d₁ E₂ d₂) (tgMethod : MethodDescription) :
    generateHelperDef E₁ d₁ tgMethod = generateHelperDef E₂ d₂ tgMethod := by
  have hstep : ∀ fromChat typeName,
      generateHelperForType E₁ d₁ tgMethod fromChat typeName =
        generateHelperForType E₂ d₂ tgMethod fromChat typeName := by
    intro fromChat typeName
    unfold generateHelperForType getMethodFieldsSubtypeMatches generateHelperArguments
      getMethodFieldsTypeMatches idFieldOf
    simp only [subtypeMatchesLoop_congr E₁ E₂ d₁ d₂ hs,
      generateHelperArgumentsLoop_congr E₁ E₂ d₁ d₂ hs]
    rw [hs.tgTypeFile, hs.tgTypeMessage, hs.titleToSnake, hs.GetReturnTypes, hs.receiverName,
      hs.optsName, hs.stringsTitle]
    simp only [hs.typeAt]
  have hloop : ∀ (types : List String) (fromChat : Bool) (helperDef : String),
      generateHelperDefLoop E₁ d₁ tgMethod fromChat types helperDef =
        generateHelperDefLoop E₂ d₂ tgMethod fromChat types helperDef := by
    intro types
    induction types with
    | nil => intro fromChat helperDef; rfl
    | cons T rest ih =>
      intro fromChat helperDef
      unfold generateHelperDefLoop
      rw [hstep]
      simp only [ih]
  unfold generateHelperDef
  rw [hs.orderedTgTypes, hloop]

/-- The loop of `generateHelpers` depends on the external functions and the schema only through
their answers and through the entry of every method name. -/
theorem generateHelpersLoop_congr (E₁ E₂ : Externals) (d₁ d₂ : APIDescription)
    (hs : SameAnswers E₁ d₁ E₂ d₂) (hm : ∀ name, d₁.methodAt name = d₂.methodAt name) :
    ∀ (names : List String) (helpers : String),
      generateHelpersLoop E₁ d₁ names helpers = generateHelpersLoop E₂ d₂ names helpers := by
  intro names
  induction names with
  | nil => intro helpers; rfl
  | cons n rest ih =>
    intro helpers
    unfold generateHelpersLoop
    rw [hm, generateHelperDef_congr E₁ E₂ d₁ d₂ hs]
    simp only [ih]

/-! ## A method without helpers -/

/-- The loop of `generateHelpers` gives the same result with and without a method for which
`generateHelperDef` returns the empty text. -/
theorem generateHelpersLoop_skip (E : Externals) (d : APIDescription) (name : String)
    (post : List String) (hdef : generateHelperDef E d (d.methodAt name) = .ok "") :
    ∀ (pre : List String) (helpers : String),
      generateHelpersLoop E d (pre ++ name :: post) helpers =
        generateHelpersLoop E d (pre ++ post) helpers := by
  intro pre
  induction pre with
  | nil =>
    intro helpers
    rw [List.nil_append, List.nil_append, generateHelpersLoop, hdef]
    simp only [if_true]
  | cons n rest ih =>
    intro helpers
    rw [List.cons_append, List.cons_append, generateHelpersLoop, generateHelpersLoop]
    cases generateHelperDef E d (d.methodAt n) with
    | error err => rfl
    | ok helper =>
      simp only
      split
      · exact ih _
      · exact ih _

/-- The loop of `generateHelperDef` returns the text it started from when its body skips every
type. -/
theorem generateHelperDefLoop_all_skipped (E : Externals) (d : APIDescription)
    (tgMethod : MethodDescription) (fromChat : Bool) :
    ∀ (types : List String) (helperDef : String),
      (∀ typeName ∈ types,
        generateHelperForType E d tgMethod fromChat typeName = .ok none) →
      generateHelperDefLoop E d tgMethod fromChat types helperDef = .ok helperDef := by
  intro types
  induction types with
  | nil => intro helperDef _; rfl
  | cons T rest ih =>
    intro helperDef h
    rw [generateHelperDefLoop, h T (List.mem_cons_self _ _)]
    exact ih _ (fun x hx => h x (List.mem_cons_of_mem _ hx))

/-- The loop body of `generateHelperDef` skips a type when deleting the type name leaves the
method name unchanged or the direct match set is empty. -/
theorem generateHelperForType_skipped (E : Externals) (d : APIDescription)
    (tgMethod : MethodDescription) (fromChat : Bool) (typeName : String)
    (h : stringsReplaceFirst tgMethod.Name typeName = tgMethod.Name ∨
      getMethodFieldsTypeMatches E tgMethod typeName = []) :
    generateHelperForType E d tgMethod fromChat typeName = .ok none := by
  unfold generateHelperForType
  split
  · rfl
  · simp only
    split
    · rfl
    · rename_i hchanged
      rcases h with h | h
      · exact absurd h hchanged
      · rw [h]
        simp

/-- C11: when every type of the schema is skipped for a method (the type is File, or the type
name does not occur in the method name, or the direct match set is empty), `generateHelperDef`
returns the empty text and no error; and when such a method stands in the method sequence of
`generateHelpers`, the loop of `generateHelpers` and `generateHelpers` itself do what they do
when the method is left out of the sequence: the same text goes to `writeGenToFile`. -/
theorem generateHelpers_skipped_method (E : Externals) (d : APIDescription)
    (tgMethod : MethodDescription)
    (hskip : ∀ typeName ∈ E.orderedTgTypes d,
      typeName = E.tgTypeFile ∨ ¬ stringsContains tgMethod.Name typeName ∨
        getMethodFieldsTypeMatches E tgMethod typeName = []) :
    generateHelperDef E d tgMethod = .ok "" ∧
    (∀ name pre post, d.methodAt name = tgMethod →
      generateHelpersLoop E d (pre ++ name :: post) helpersHeader =
        generateHelpersLoop E d (pre ++ post) helpersHeader) ∧
    (∀ name pre post, d.methodAt name = tgMethod →
      E.orderedMethods d = pre ++ name :: post →
      generateHelpers E d =
        generateHelpers { E with orderedMethods := fun _ => pre ++ post } d) := by
  have hdef : generateHelperDef E d tgMethod = .ok "" := by
    unfold generateHelperDef
    apply generateHelperDefLoop_all_skipped
    intro typeName hT
    rcases hskip typeName hT with h | h | h
    · unfold generateHelperForType; rw [if_pos h]
    · apply generateHelperForType_skipped
      left
      unfold stringsReplaceFirst
      exact String.ext (removeFirst_of_absent _ _ h)
    · exact generateHelperForType_skipped E d tgMethod _ typeName (Or.inr h)
  refine ⟨hdef, ?_, ?_⟩
  · intro name pre post hname
    exact generateHelpersLoop_skip E d name post (by rw [hname]; exact hdef) pre _
  · intro name pre post hname hseq
    have hsame : SameAnswers { E with orderedMethods := fun _ => pre ++ post } d E d :=
      ⟨rfl, rfl, rfl, rfl, rfl, rfl, rfl, rfl, rfl, rfl, rfl, rfl, rfl, rfl, fun _ => rfl⟩
    unfold generateHelpers
    rw [generateHelpersLoop_congr _ E d d hsame (fun _ => rfl), hseq,
      generateHelpersLoop_skip E d name post (by rw [hname]; exact hdef) pre _]

/-- A witness of `generateHelpers_skipped_method`: in the sample schema every type is skipped
for `sendMessage`, and the artifact is the one obtained from `forwardMessage` alone. -/
theorem generateHelpers_skipped_method_witness :
    (∀ typeName ∈ Sample.externals.orderedTgTypes Sample.schema,
      typeName = Sample.externals.tgTypeFile ∨
        ¬ stringsContains Sample.sendMessage.Name typeName ∨
        getMethodFieldsTypeMatches Sample.externals Sample.sendMessage typeName = []) ∧
    Sample.externals.orderedMethods Sample.schema = ["forwardMessage"] ++ "sendMessage" :: [] ∧
    generateHelpers Sample.externals Sample.schema =
      generateHelpers
        { Sample.externals with orderedMethods := fun _ => ["forwardMessage"] ++ [] }
        Sample.schema :=
  ⟨by decide, by decide,
    (generateHelpers_skipped_method Sample.externals Sample.schema Sample.sendMessage
      (by decide)).2.2 "sendMessage" ["forwardMessage"] [] (by decide) (by decide)⟩

/-! ## Determinism -/

/-- Writing the same entry into two match sets with the same bindings gives two match sets
with the same bindings. -/
theorem sameBindings_set (fields₁ fields₂ : MatchSet) (h : sameBindings fields₁ fields₂)
    (k v : String) : sameBindings (MatchSet.set fields₁ k v) (MatchSet.set fields₂ k v) := by
  intro k'
  rw [MatchSet.get?_set, MatchSet.get?_set, h k']

/-- Two match sets with the same bindings are both empty or both non-empty. -/
theorem sameBindings_length (fields₁ fields₂ : MatchSet) (h : sameBindings fields₁ fields₂) :
    fields₁.length = 0 ↔ fields₂.length = 0 := by
  rw [List.length_eq_zero, List.length_eq_zero, MatchSet.eq_nil_iff, MatchSet.eq_nil_iff]
  constructor
  · intro h1 k; rw [← h k]; exact h1 k
  · intro h2 k; rw [h k]; exact h2 k

/-- The loop of `generateHelperArguments` reads the match set by key only. -/
theorem generateHelperArgumentsLoop_sameBindings (E : Externals) (d : APIDescription)
    (tgMethod : MethodDescription) (receiverName : String) (fields₁ fields₂ : MatchSet)
    (h : sameBindings fields₁ fields₂) :
    ∀ (fs : List Field) (call defs : List String) (body : String),
      generateHelperArgumentsLoop E d tgMethod receiverName fields₁ fs call defs body =
        generateHelperArgumentsLoop E d tgMethod receiverName fields₂ fs call defs body := by
  intro fs
  induction fs with
  | nil => intro call defs body; rfl
  | cons mf rest ih =>
    intro call defs body
    unfold generateHelperArgumentsLoop
    rw [h mf.Name]
    simp only [ih]

/-- The function `generateHelperArguments` reads the match set by key only. -/
theorem generateHelperArguments_sameBindings (E : Externals) (d : APIDescription)
    (tgMethod : MethodDescription) (receiverName : String) (fields₁ fields₂ : MatchSet)
    (h : sameBindings fields₁ fields₂) :
    generateHelperArguments E d tgMethod receiverName fields₁ =
      generateHelperArguments E d tgMethod receiverName fields₂ := by
  unfold generateHelperArguments
  rw [generateHelperArgumentsLoop_sameBindings E d tgMethod receiverName fields₁ fields₂ h]

/-- The inner loop of subtype matching only writes the match set: from two match sets with
the same bindings it reaches the same outcome. -/
theorem subtypeMatchesOfField_sameBindings (E : Externals) (d : APIDescription)
    (tgMethod : MethodDescription) (f : Field) (fromChat : Bool) :
    ∀ (fs : List Field) (repl : String) (fields₁ fields₂ : MatchSet),
      sameBindings fields₁ fields₂ →
      sameOutcome (subtypeMatchesOfField E d tgMethod f fromChat fs repl fields₁)
        (subtypeMatchesOfField E d tgMethod f fromChat fs repl fields₂) := by
  intro fs
  induction fs with
  | nil => intro repl fields₁ fields₂ h; exact ⟨rfl, h⟩
  | cons mf rest ih =>
    intro repl fields₁ fields₂ h
    unfold subtypeMatchesOfField
    cases E.getPreferredType d f with
    | error err => exact rfl
    | ok p =>
      simp only
      split
      · split
        · exact ih _ _ _ (sameBindings_set _ _ h _ _)
        · exact ih _ _ _ (sameBindings_set _ _ h _ _)
      · exact ih _ _ _ h

/-- The outer loop of subtype matching only writes the match set: from two match sets with
the same bindings it reaches the same outcome. -/
theorem subtypeMatchesLoop_sameBindings (E : Externals) (d : APIDescription)
    (tgMethod : MethodDescription) (fromChat : Bool) :
    ∀ (gs : List Field) (repl : String) (fields₁ fields₂ : MatchSet),
      sameBindings fields₁ fields₂ →
      sameOutcome (subtypeMatchesLoop E d tgMethod fromChat gs repl fields₁)
        (subtypeMatchesLoop E d tgMethod fromChat gs repl fields₂) := by
  intro gs
  induction gs with
  | nil => intro repl fields₁ fields₂ h; exact ⟨rfl, h⟩
  | cons g rest ih =>
    intro repl fields₁ fields₂ h
    unfold subtypeMatchesLoop
    split
    · exact ih _ _ _ h
    · have hin := subtypeMatchesOfField_sameBindings E d tgMethod g fromChat tgMethod.Fields
        repl fields₁ fields₂ h
      cases h1 : subtypeMatchesOfField E d tgMethod g fromChat tgMethod.Fields repl fields₁ with
      | error e1 =>
        cases h2 : subtypeMatchesOfField E d tgMethod g fromChat tgMethod.Fields repl
            fields₂ with
        | error e2 =>
          rw [h1, h2] at hin
          exact hin
        | ok r2 =>
          rw [h1, h2] at hin
          exact hin.elim
      | ok r1 =>
        cases h2 : subtypeMatchesOfField E d tgMethod g fromChat tgMethod.Fields repl
            fields₂ with
        | error e2 =>
          rw [h1, h2] at hin
          exact hin.elim
        | ok r2 =>
          obtain ⟨n1, o1⟩ := r1
          obtain ⟨n2, o2⟩ := r2
          rw [h1, h2] at hin
          obtain ⟨hn, ho⟩ := hin
          subst hn
          exact ih _ _ _ ho

/-- C13: generation is a function of the schema and of the answers of the external functions.
Two runs of `generateHelpers` on schemas that have the same entry for every method name and
every type name, and on which the external functions answer alike, end with the same error
and the same calls of `writeGenToFile`, however the entries of the schema maps are stored.
And the match set is read by key and by emptiness only: from two match sets with the same
bindings, the emptiness test agrees, subtype matching reaches the same outcome (the same error,
or the same name and the same bindings), and `generateHelperArguments` returns the same
result. -/
theorem generateHelpers_deterministic (E : Externals) (d : APIDescription) :
    (∀ d' : APIDescription, SameAnswers E d E d' →
      (∀ name, d.methodAt name = d'.methodAt name) →
      E.orderedMethods d = E.orderedMethods d' →
      generateHelpers E d = generateHelpers E d') ∧
    (∀ (tgMethod : MethodDescription) (tgType : TypeDescription) (repl : String)
        (fromChat : Bool) (receiverName : String) (fields₁ fields₂ : MatchSet),
      sameBindings fields₁ fields₂ →
      (fields₁.length = 0 ↔ fields₂.length = 0) ∧
      sameOutcome (getMethodFieldsSubtypeMatches E d tgMethod tgType repl fromChat fields₁)
        (getMethodFieldsSubtypeMatches E d tgMethod tgType repl fromChat fields₂) ∧
      generateHelperArguments E d tgMethod receiverName fields₁ =
        generateHelperArguments E d tgMethod receiverName fields₂) := by
  constructor
  · intro d' hs hm ho
    unfold generateHelpers
    rw [generateHelpersLoop_congr E E d d' hs hm, ho]
  · intro tgMethod tgType repl fromChat receiverName fields₁ fields₂ h
    exact ⟨sameBindings_length _ _ h,
      subtypeMatchesLoop_sameBindings E d tgMethod fromChat _ _ _ _ h,
      generateHelperArguments_sameBindings E d tgMethod receiverName _ _ h⟩

/-- A witness of `generateHelpers_deterministic`: the sample schema with its maps stored in
another order gives the same run, and the match set of `forwardMessage` on `Message` stored in
the other order gives the same argument lists. -/
theorem generateHelpers_deterministic_witness :
    generateHelpers Sample.externals Sample.schema
      = generateHelpers Sample.externals Sample.schemaReordered ∧
    generateHelperArguments Sample.externals Sample.schema Sample.forwardMessage "m"
        [("message_id", "message_id"), ("from_chat_id", "chat.Id")] =
      generateHelperArguments Sample.externals Sample.schema Sample.forwardMessage "m"
        [("from_chat_id", "chat.Id"), ("message_id", "message_id")] := by
  have h := generateHelpers_deterministic Sample.externals Sample.schema
  constructor
  · refine h.1 Sample.schemaReordered ?_ ?_ (by decide)
    · refine ⟨by decide, rfl, ?_, rfl, rfl, rfl, rfl, rfl, rfl, rfl, rfl, rfl, rfl, rfl, ?_⟩
      · funext t
        show Sample.isTgType Sample.schema t = Sample.isTgType Sample.schemaReordered t
        simp only [Sample.isTgType, Sample.schema, Sample.schemaReordered, List.any_cons,
          List.any_nil, Bool.or_false]
        cases decide ("Message" = t) <;> cases decide ("Chat" = t) <;>
          cases decide ("User" = t) <;> rfl
      · intro typeName
        simp only [APIDescription.typeAt, Sample.schema, Sample.schemaReordered, List.find?]
        by_cases h1 : "Message" = typeName
        · subst h1; rfl
        · by_cases h2 : "Chat" = typeName
          · subst h2; rfl
          · by_cases h3 : "User" = typeName
            · subst h3; rfl
            · simp [h1, h2, h3]
    · intro name
      simp only [APIDescription.methodAt, Sample.schema, Sample.schemaReordered, List.find?]
      by_cases h1 : "sendMessage" = name
      · subst h1; rfl
      · by_cases h2 : "forwardMessage" = name
        · subst h2; rfl
        · simp [h1, h2]
  · refine (h.2 Sample.forwardMessage Sample.messageType "forward" true "m" _ _ ?_).2.2
    intro k
    simp only [MatchSet.get?]
    by_cases h1 : "message_id" = k
    · subst h1; rfl
    · by_cases h2 : "from_chat_id" = k
      · subst h2; rfl
      · simp [h1, h2]

end Helpers
